import Mathlib

/-!
Verification of the JP2 (JPEG-2000) box walker and metadata rewriter of
src/src/jp2image.cpp (class Exiv2::Jp2Image) against its natural-language
specification.  The C++ functions are shallowly embedded as executable Lean
functions over an explicit reader state; machine integer wrap-around is
modelled with explicit `% 2^32` / `% 2^64` where the C++ arithmetic wraps.
-/

namespace Jp2

/-- Error kinds thrown by the C++ code (`Exiv2::Error(ker...)`).
`fuelExhausted` is an artefact of the fuel-based embedding of the loops and
never occurs in any run appearing in a theorem below; `overflowErr` models the
exception thrown by `Safe::add` on unsigned overflow. -/
inductive Err where
  | corrupted
  | notAnImage
  | notAJpeg
  | dataSourceOpenFailed
  | failedToReadImageData
  | inputDataReadFailed
  | imageWriteFailed
  | noImageInInputData
  | overflowErr
  | fuelExhausted
deriving DecidableEq

/-- Byte strings are lists of naturals (each < 256 for well-formed data). -/
abbrev Bytes := List Nat

/-- Byte `i` of a byte string, 0 when out of range (matches the zero-initialised
buffers the C++ code reads into). -/
def byteAt (l : Bytes) (i : Nat) : Nat := l.getD i 0

/-- Big-endian 32-bit decode of four bytes (`Exiv2::getLong(..., bigEndian)`). -/
def getLong4 (a b c d : Nat) : Nat := ((a * 256 + b) * 256 + c) * 256 + d

/-- Big-endian 32-bit decode of the four bytes of `l` starting at offset `i`. -/
def getLongAt (l : Bytes) (i : Nat) : Nat :=
  getLong4 (byteAt l i) (byteAt l (i + 1)) (byteAt l (i + 2)) (byteAt l (i + 3))

/-- Big-endian 32-bit encode (`Exiv2::ul2Data(..., bigEndian)`); the uint32
truncation of the C++ argument is performed by the byte extraction itself. -/
def ul2Data (v : Nat) : Bytes :=
  [v / 16777216 % 256, v / 65536 % 256, v / 256 % 256, v % 256]

/-- `memcpy(buf + off, bs, bs.length)` on a fixed-size buffer: bytes of `bs`
that would fall beyond the end of `buf` are discarded. -/
def writeAt (buf : Bytes) (off : Nat) (bs : Bytes) : Bytes :=
  buf.take off ++ bs.take (buf.length - off) ++ buf.drop (off + bs.length)

-- JPEG-2000 box type codes (big-endian values of the four ASCII bytes).
def tySig : Nat := 0x6a502020
def tyFtyp : Nat := 0x66747970
def tyJp2h : Nat := 0x6a703268
def tyIhdr : Nat := 0x69686472
def tyColr : Nat := 0x636f6c72
def tyUuid : Nat := 0x75756964
def tyClose : Nat := 0x6a703263

/-- The 12-byte JP2 signature box (`Jp2Signature`). -/
def jp2SigBytes : Bytes :=
  [0x00, 0x00, 0x00, 0x0c, 0x6a, 0x50, 0x20, 0x20, 0x0d, 0x0a, 0x87, 0x0a]

/-- `kJp2UuidExif`: the 16 ASCII bytes of "JpgTiffExif->JP2". -/
def exifUuidB : Bytes :=
  [0x4a, 0x70, 0x67, 0x54, 0x69, 0x66, 0x66, 0x45,
   0x78, 0x69, 0x66, 0x2d, 0x3e, 0x4a, 0x50, 0x32]

/-- `kJp2UuidIptc`. -/
def iptcUuidB : Bytes :=
  [0x33, 0xc7, 0xa4, 0xd2, 0xb8, 0x1d, 0x47, 0x23,
   0xa0, 0xba, 0xf1, 0xa3, 0xe0, 0x97, 0xad, 0x38]

/-- `kJp2UuidXmp`. -/
def xmpUuidB : Bytes :=
  [0xbe, 0x7a, 0xcf, 0xcb, 0x97, 0xa9, 0x42, 0xe8,
   0x9c, 0x71, 0x99, 0x94, 0x91, 0xe3, 0xaf, 0xac]

/-- The random-access byte stream underlying a `BasicIo`: a total byte
function together with the stream size. -/
structure Stream where
  byte : Nat → Nat
  size : Nat

/-- Reader state: stream, current position (`tell`), and the MemIo eof flag
(set by a short read, cleared by a seek).  MemIo never sets the error flag on
reads/seeks to non-negative positions, so no error flag is modelled. -/
structure Rdr where
  str : Stream
  pos : Nat
  eofFlag : Bool

/-- The `n` bytes of stream `s` starting at position `p`. -/
def bytesFrom (s : Stream) : Nat → Nat → Bytes
  | _, 0 => []
  | p, n + 1 => s.byte p :: bytesFrom s (p + 1) n

/-- `io->read(buf, n)`: returns the bytes actually available (up to `n`) and
advances the position; a short read sets the eof flag (MemIo semantics). -/
def readN (r : Rdr) (n : Nat) : Bytes × Rdr :=
  let avail := r.str.size - r.pos
  let k := min n avail
  (bytesFrom r.str r.pos k,
   ⟨r.str, r.pos + k, r.eofFlag || decide (avail < n)⟩)

/-- `io->seek(p, BasicIo::beg)` to a non-negative position (always succeeds
for MemIo and clears the eof flag). -/
def seekTo (r : Rdr) (p : Nat) : Rdr := ⟨r.str, p, false⟩

/-- Build a reader over a concrete byte list. -/
def rdrOfList (d : Bytes) : Rdr := ⟨⟨fun i => byteAt d i, d.length⟩, 0, false⟩

/-- `Exiv2::isJp2Type(io, advance)`: reads 12 bytes and compares with the JP2
signature; restores the position unless `advance` and matched. -/
def isJp2Type (r : Rdr) (advance : Bool) : Bool × Rdr :=
  let p := readN r 12
  if p.2.eofFlag then (false, p.2)
  else
    let matched : Bool := p.1 == jp2SigBytes
    if !advance || !matched then (matched, seekTo p.2 r.pos)
    else (matched, p.2)

/-- Modelled from the spec: `Exiv2::Internal::isValidBoxFileType` lives in
jp2image_int.cpp, which is not part of the given sources.  Per spec section
4.3 it checks brand / minor-version / compatibility fields with a minimum
payload length of 8: we require the brand to be the code of ASCII "jp2 " and
some 4-byte compatibility entry (scanned from offset 8) to equal it.
`vsize` is the declared vector size; `bs` holds the bytes actually read into
the zero-initialised vector (bytes beyond `bs` are zero, hence can never
match the brand, so scanning `bs` is exhaustive). -/
def clScan : Bytes → Bool
  | a :: b :: c :: d :: rest => (getLong4 a b c d == 0x6a703220) || clScan rest
  | _ => false

/-- Modelled from the spec: see `clScan`. -/
def isValidBoxFileType (vsize : Nat) (bs : Bytes) : Bool :=
  decide (8 ≤ vsize) && (getLongAt bs 0 == 0x6a703220) && clScan (bs.drop 8)

/-! ## `Jp2Image::readMetadata` (src/src/jp2image.cpp lines 155-419)

The embedding returns the thrown error (or `.ok ()` on normal return)
together with the list of buffer sizes requested from the allocator, in
request order (`std::vector` construction and `DataBuf` allocation). -/

instance exceptDecEq {ε α : Type} [DecidableEq ε] [DecidableEq α] :
    DecidableEq (Except ε α) := fun a b =>
  match a, b with
  | .ok x, .ok y =>
    if h : x = y then .isTrue (by rw [h]) else .isFalse (by intro hc; cases hc; exact h rfl)
  | .error x, .error y =>
    if h : x = y then .isTrue (by rw [h]) else .isFalse (by intro hc; cases hc; exact h rfl)
  | .ok _, .error _ => .isFalse (by intro hc; cases hc)
  | .error _, .ok _ => .isFalse (by intro hc; cases hc)

/-- Result of `readMetadata`: outcome and the requested allocation sizes. -/
structure RmRes where
  res : Except Err Unit
  allocs : List Nat
deriving DecidableEq

/-- The sub-box loop of the `kJp2BoxTypeHeader` case (lines 224-291).
Returns the reader, the shared box counter and the allocation log on normal
exit.  `restore` is the seek base maintained by the loop. -/
def rmSub : Nat → Rdr → Nat → Nat → List Nat →
    (Except Err (Rdr × Nat)) × List Nat
  | 0, _, _, _, allocs => (.error .fuelExhausted, allocs)
  | fuel + 1, r, restore, boxes, allocs =>
    let p := readN r 8
    let hdr := p.1
    let r1 := p.2
    -- while (read == sizeof(subBox) && subBox.length)
    if hdr.length < 8 ∨ getLongAt hdr 0 = 0 then (.ok (r1, boxes), allocs)
    else if boxes > 1000 then (.error .corrupted, allocs)  -- boxes_check
    else
      let boxes1 := boxes + 1
      let subLen := getLongAt hdr 0
      let subTy := getLongAt hdr 4
      if subLen > r1.str.size then (.error .corrupted, allocs)
      else
        -- Color Specification sub-box with length != 15 (lines 235-268)
        let colrStep : (Except Err Rdr) × List Nat :=
          if subTy = tyColr ∧ subLen ≠ 15 then
            if subLen + 8 ≥ 4294967296 then (.error .overflowErr, allocs)
            else
              let dlen := subLen + 8  -- Safe::add(subBox.length, 8)
              if dlen > r1.str.size - r1.pos then (.error .corrupted, allocs)
              else
                let allocs1 := allocs ++ [dlen]  -- DataBuf data(data_length)
                let q := readN r1 dlen
                let iccLen := getLongAt q.1 3
                if iccLen > dlen - 3 then (.error .corrupted, allocs1)
                else (.ok q.2, allocs1 ++ [iccLen])  -- DataBuf icc(iccLength)
          else (.ok r1, allocs)
        match colrStep with
        | (.error e, allocs2) => (.error e, allocs2)
        | (.ok r2, allocs2) =>
          -- Image Header sub-box (lines 270-284); ihdr was zero-initialised,
          -- so bytes not delivered by the read stay zero.
          let ihdrStep : Except Err Rdr :=
            if subTy = tyIhdr then
              let q := readN r2 14
              if byteAt q.1 11 ≠ 7 then .error .corrupted else .ok q.2
            else .ok r2
          match ihdrStep with
          | .error e => (.error e, allocs2)
          | .ok r3 =>
            -- seek(restore, beg); seek(subBox.length, cur); restore = tell()
            let r4 := seekTo r3 (restore + subLen)
            rmSub fuel r4 (restore + subLen) boxes1 allocs2

/-- The top-level box loop of `readMetadata` (lines 180-418). -/
def rmTop : Nat → Rdr → Nat → List Nat → Nat → Bool → Bool →
    (Except Err Unit) × List Nat
  | 0, _, _, allocs, _, _, _ => (.error .fuelExhausted, allocs)
  | fuel + 1, r, boxes, allocs, lastTy, sigFound, ftypFound =>
    let p := readN r 8
    let hdr := p.1
    let r1 := p.2
    if hdr.length < 8 then (.ok (), allocs)  -- while (read == sizeof(box))
    else if boxes > 1000 then (.error .corrupted, allocs)  -- boxes_check
    else
      let boxes1 := boxes + 1
      let position := r1.pos
      let len := getLongAt hdr 0
      let ty := getLongAt hdr 4
      -- enforce(box.length <= sizeof(box) + io->size() - io->tell())
      if ¬(len ≤ 8 + r1.str.size - position) then (.error .corrupted, allocs)
      else if len = 0 then (.ok (), allocs)
      else
        -- box.length == 1 would announce an XLBox extended length, but the
        -- source only carries a todo comment and takes no action (line 195).
        let dispatch : (Except Err (Rdr × Nat × Bool × Bool)) × List Nat :=
          if ty = tySig then
            if sigFound then (.error .corrupted, allocs)
            else (.ok (r1, boxes1, true, ftypFound), allocs)
          else if ty = tyFtyp then
            if ftypFound ∨ lastTy ≠ tySig then (.error .corrupted, allocs)
            else
              -- std::vector<byte> boxData(box.length - boxSize): size_t wrap
              let vsize := (18446744073709551616 + len - 8) % 18446744073709551616
              let allocs1 := allocs ++ [vsize]
              let q := readN r1 vsize
              if isValidBoxFileType vsize q.1 then (.ok (q.2, boxes1, sigFound, true), allocs1)
              else (.error .corrupted, allocs1)
          else if ty = tyJp2h then
            match rmSub fuel r1 r1.pos boxes1 allocs with
            | (.error e, allocs1) => (.error e, allocs1)
            | (.ok (r2, boxes2), allocs1) => (.ok (r2, boxes2, sigFound, ftypFound), allocs1)
          else if ty = tyUuid then
            let q := readN r1 16
            if q.1.length = 16 then
              let u := q.1
              let isMeta : Bool := u == exifUuidB || u == iptcUuidB || u == xmpUuidB
              if isMeta then
                -- enforce(box.length >= sizeof(box) + sizeof(uuid))
                if len < 24 then (.error .corrupted, allocs)
                else
                  let allocs1 := allocs ++ [len - 24]  -- rawData.alloc
                  let w := readN q.2 (len - 24)
                  if w.1.length < len - 24 then (.error .inputDataReadFailed, allocs1)
                  else (.ok (w.2, boxes1, sigFound, ftypFound), allocs1)
                  -- the external TiffParser / IptcParser / XmpParser decoders
                  -- only fill the metadata stores and cannot fail the walk
              else (.ok (q.2, boxes1, sigFound, ftypFound), allocs)
            else (.ok (q.2, boxes1, sigFound, ftypFound), allocs)
          else (.ok (r1, boxes1, sigFound, ftypFound), allocs)
        match dispatch with
        | (.error e, allocs1) => (.error e, allocs1)
        | (.ok (r2, boxes2, sig2, ftyp2), allocs1) =>
          -- io->seek(position - sizeof(box) + box.length, beg)
          let r3 := seekTo r2 (position - 8 + len)
          rmTop fuel r3 boxes2 allocs1 ty sig2 ftyp2

/-- `Jp2Image::readMetadata` on a stream. -/
def readMetadataS (s : Stream) : RmRes :=
  let r0 : Rdr := ⟨s, 0, false⟩
  let p := isJp2Type r0 false
  if !p.1 then ⟨.error .notAnImage, []⟩
  else
    let q := rmTop 1200 p.2 0 [] 0 false false
    ⟨q.1, q.2⟩

/-- `Jp2Image::readMetadata` on a concrete byte list. -/
def readMetadataL (d : Bytes) : RmRes := readMetadataS ⟨fun i => byteAt d i, d.length⟩

/-! ## `Jp2Image::printStructure` (src/src/jp2image.cpp lines 421-616)

Only the control flow (which error, if any, is thrown) is modelled; the
human-readable tabulation written to `out` does not influence it.  The model
corresponds to the `kpsBasic` option: the recursive re-entry into the TIFF
printer (`kpsRecursive`) invokes an external collaborator and the other
options only change what is printed. -/

/-- Lines 530-534: `METH == 1` (enumerated colourspace) accepts only the
values 16 (sRGB) and 17 (greyscale). -/
def colrCheckE (enumCS : Nat) : Except Err Unit :=
  if enumCS = 16 ∨ enumCS = 17 then .ok () else .error .corrupted

/-- The sub-box loop of the `kJp2BoxTypeHeader` case (lines 488-548).
`position` is `io->tell()` just after the jp2h box header was read. -/
def psSub (position boxLen : Nat) : Nat → Rdr → Except Err Rdr
  | 0, _ => .error .fuelExhausted
  | fuel + 1, r =>
    let p := readN r 8
    let hdr := p.1
    let r1 := p.2
    -- while (read == sizeof(subBox) && tell() < position + box.length)
    if hdr.length < 8 ∨ ¬(r1.pos < position + boxLen) then .ok r1
    else
      let subLen := getLongAt hdr 0
      let subTy := getLongAt hdr 4
      if subLen < 8 ∨ subLen > r1.str.size - r1.pos then .error .corrupted
      else
        let q := readN r1 (subLen - 8)  -- DataBuf data(subBox.length - sizeof(box))
        let data := q.1
        let r2 := q.2
        if subTy = tyIhdr then
          -- enforce(subBox.length == 22); height/width/components/bpc layout
          if subLen ≠ 22 then .error .corrupted
          else if byteAt data 11 ≠ 7 ∨ byteAt data 12 > 1 ∨ byteAt data 13 > 1 then
            .error .corrupted
          else psSub position boxLen fuel r2
        else if subTy = tyColr then
          -- enforce(data.size_ >= pad + 4), pad = 3
          if ¬(3 + 4 ≤ subLen - 8) then .error .corrupted
          else if byteAt data 0 = 1 then
            Except.bind (colrCheckE (getLongAt data 3)) (fun _ => psSub position boxLen fuel r2)
          else
            -- Restricted ICC profile: enforce(iccLength <= data.size_ - pad)
            if ¬(getLongAt data 3 ≤ (subLen - 8) - 3) then .error .corrupted
            else psSub position boxLen fuel r2
        else psSub position boxLen fuel r2

/-- The dispatch on the decoded box type inside the `printStructure` loop
body (lines 469-606); returns the reader and signature flag to continue
with.  `fuel` is handed on to the jp2h sub-box loop. -/
def psDispatch (fuel : Nat) (r1 : Rdr) (position len ty : Nat) (sigFound : Bool) :
    Except Err (Rdr × Bool) :=
  if ty = tySig then
    if sigFound then .error .corrupted else .ok (r1, true)
  else if ty = tyFtyp then
    -- std::vector<byte> boxData(box.length - boxSize): size_t wrap
    let vsize := (18446744073709551616 + len - 8) % 18446744073709551616
    let q := readN r1 vsize
    if isValidBoxFileType vsize q.1 then .ok (q.2, sigFound)
    else .error .corrupted
  else if ty = tyJp2h then
    Except.bind (psSub position len fuel r1) (fun r2 => .ok (r2, sigFound))
  else if ty = tyUuid then
    let q := readN r1 16
    if q.1.length = 16 then
      -- enforce(box.length >= sizeof(uuid) + sizeof(box))
      if len < 24 then .error .corrupted
      else
        let w := readN q.2 (len - 24)
        if w.1.length < len - 24 then .error .inputDataReadFailed
        else .ok (w.2, sigFound)
    else .ok (q.2, sigFound)
  else .ok (r1, sigFound)

/-- The top-level box loop of `printStructure` (lines 452-614).  `prevLen`
and `prevTy` model the `box` struct checked by the loop condition before the
next header is read (initialised to `{1, 1}`). -/
def psTop : Nat → Rdr → Nat → Nat → Bool → Except Err Unit
  | 0, _, _, _, _ => .error .fuelExhausted
  | fuel + 1, r, prevLen, prevTy, sigFound =>
    if prevLen = 0 ∨ prevTy = tyClose then .ok ()
    else
      let p := readN r 8
      let hdr := p.1
      let r1 := p.2
      if hdr.length < 8 then .ok ()
      else
        let position := r1.pos
        let len := getLongAt hdr 0
        let ty := getLongAt hdr 4
        -- enforce(box.length <= sizeof(box) + io->size() - io->tell())
        if ¬(len ≤ 8 + r1.str.size - position) then .error .corrupted
        else if ty = tyClose then .ok ()
        else
          Except.bind (psDispatch fuel r1 position len ty sigFound)
            (fun st => psTop fuel (seekTo st.1 (position - 8 + len)) len ty st.2)

/-- `Jp2Image::printStructure` (with the `kpsBasic` option) on a stream. -/
def printStructureS (s : Stream) : Except Err Unit :=
  let r0 : Rdr := ⟨s, 0, false⟩
  let p := isJp2Type r0 false
  if !p.1 then
    if p.2.eofFlag then .error .failedToReadImageData
    else .error .notAJpeg
  else psTop (s.size + 1024) p.2 1 1 false

/-- `Jp2Image::printStructure` on a concrete byte list. -/
def printStructureL (d : Bytes) : Except Err Unit :=
  printStructureS ⟨fun i => byteAt d i, d.length⟩

/-! ## Evaluation lemmas for the reader primitives -/

theorem bytesFrom_length (s : Stream) : ∀ n p, (bytesFrom s p n).length = n := by
  intro n
  induction n with
  | zero => intro p; rfl
  | succ m ih => intro p; simp [bytesFrom, ih]

theorem byteAt_bytesFrom (s : Stream) :
    ∀ n p i, i < n → byteAt (bytesFrom s p n) i = s.byte (p + i) := by
  intro n
  induction n with
  | zero => intro p i h; omega
  | succ m ih =>
    intro p i h
    cases i with
    | zero => simp [bytesFrom, byteAt]
    | succ j =>
      have h2 : j < m := by omega
      have := ih (p + 1) j h2
      simp only [bytesFrom, byteAt, List.getD_cons_succ] at *
      rw [this]
      congr 1
      omega

theorem readN_full {r : Rdr} {n : Nat} (h : r.pos + n ≤ r.str.size) :
    readN r n = (bytesFrom r.str r.pos n, ⟨r.str, r.pos + n, r.eofFlag⟩) := by
  unfold readN
  simp only []
  have h1 : min n (r.str.size - r.pos) = n := by omega
  have h2 : decide (r.str.size - r.pos < n) = false := by
    simp only [decide_eq_false_iff_not]
    omega
  rw [h1, h2, Bool.or_false]

theorem readN_at {s : Stream} {p n : Nat} {e : Bool} (h : p + n ≤ s.size) :
    readN ⟨s, p, e⟩ n = (bytesFrom s p n, ⟨s, p + n, e⟩) := readN_full h

theorem getLongAt_bytesFrom {s : Stream} {n p i : Nat} (h : i + 4 ≤ n) :
    getLongAt (bytesFrom s p n) i =
      getLong4 (s.byte (p + i)) (s.byte (p + i + 1)) (s.byte (p + i + 2))
        (s.byte (p + i + 3)) := by
  unfold getLongAt
  rw [byteAt_bytesFrom s n p i (by omega), byteAt_bytesFrom s n p (i + 1) (by omega),
    byteAt_bytesFrom s n p (i + 2) (by omega), byteAt_bytesFrom s n p (i + 3) (by omega)]
  ring_nf

theorem getLongAt_bytesFrom0 {s : Stream} {n p : Nat} (h : 4 ≤ n) :
    getLongAt (bytesFrom s p n) 0 =
      getLong4 (s.byte p) (s.byte (p + 1)) (s.byte (p + 2)) (s.byte (p + 3)) := by
  have := getLongAt_bytesFrom (s := s) (n := n) (p := p) (i := 0) (by omega)
  simpa using this

theorem getLongAt_bytesFrom4 {s : Stream} {n p : Nat} (h : 8 ≤ n) :
    getLongAt (bytesFrom s p n) 4 =
      getLong4 (s.byte (p + 4)) (s.byte (p + 5)) (s.byte (p + 6)) (s.byte (p + 7)) := by
  have := getLongAt_bytesFrom (s := s) (n := n) (p := p) (i := 4) (by omega)
  simpa [Nat.add_assoc] using this

theorem byteAt_bytesFrom0 {s : Stream} {n p : Nat} (h : 1 ≤ n) :
    byteAt (bytesFrom s p n) 0 = s.byte p := by
  have := byteAt_bytesFrom s n p 0 (by omega)
  simpa using this

theorem getLongAt_bytesFrom3 {s : Stream} {n p : Nat} (h : 7 ≤ n) :
    getLongAt (bytesFrom s p n) 3 =
      getLong4 (s.byte (p + 3)) (s.byte (p + 4)) (s.byte (p + 5)) (s.byte (p + 6)) := by
  have := getLongAt_bytesFrom (s := s) (n := n) (p := p) (i := 3) (by omega)
  simpa [Nat.add_assoc] using this

theorem getLong4_congr {a b c d v : Nat} (w x y z : Nat)
    (ha : a = w) (hb : b = x) (hc : c = y) (hd : d = z)
    (h : getLong4 w x y z = v) : getLong4 a b c d = v := by
  rw [ha, hb, hc, hd]
  exact h

/-! ## Single-iteration stepping lemmas for the `printStructure` loops

These describe one turn of the `psTop` / `psSub` loops on a box whose header
bytes decode as stated, and are the tool by which a run on a stream holding
symbolic payload bytes is evaluated. -/

theorem isJp2Type_noadv {s : Stream} {p : Nat} (h : p + 12 ≤ s.size) :
    isJp2Type ⟨s, p, false⟩ false = (bytesFrom s p 12 == jp2SigBytes, ⟨s, p, false⟩) := by
  simp only [isJp2Type, readN_at h]
  simp only [Bool.false_eq_true, if_false, Bool.not_false, Bool.true_or, if_true, seekTo]

theorem psTop_step_sig (fuel prevLen prevTy len : Nat) (s : Stream) (p : Nat)
    (hprev : ¬(prevLen = 0 ∨ prevTy = tyClose))
    (hread : p + 8 ≤ s.size)
    (hlen : getLong4 (s.byte p) (s.byte (p + 1)) (s.byte (p + 2)) (s.byte (p + 3)) = len)
    (hty : getLong4 (s.byte (p + 4)) (s.byte (p + 5)) (s.byte (p + 6)) (s.byte (p + 7)) = tySig)
    (henf : len ≤ 8 + s.size - (p + 8)) :
    psTop (fuel + 1) ⟨s, p, false⟩ prevLen prevTy false =
      psTop fuel ⟨s, p + len, false⟩ len tySig true := by
  simp only [psTop, readN_at hread]
  simp only [bytesFrom_length, getLongAt_bytesFrom0 (show (4:Nat) ≤ 8 by omega),
    getLongAt_bytesFrom4 (le_refl 8), hlen, hty]
  rw [if_neg hprev]
  rw [if_neg (show ¬(8 < 8) by omega)]
  rw [if_neg (not_not_intro henf)]
  rw [if_neg (show ¬(tySig = tyClose) by decide)]
  simp only [psDispatch]
  simp only [if_true, Bool.false_eq_true, if_false, Except.bind, seekTo]
  have harith : p + 8 - 8 + len = p + len := by omega
  rw [harith]

theorem psTop_step_ftyp (fuel prevLen prevTy len : Nat) (s : Stream) (p : Nat) (sigF : Bool)
    (hprev : ¬(prevLen = 0 ∨ prevTy = tyClose))
    (hread : p + 8 ≤ s.size)
    (hlen : getLong4 (s.byte p) (s.byte (p + 1)) (s.byte (p + 2)) (s.byte (p + 3)) = len)
    (hty : getLong4 (s.byte (p + 4)) (s.byte (p + 5)) (s.byte (p + 6)) (s.byte (p + 7)) = tyFtyp)
    (henf : len ≤ 8 + s.size - (p + 8))
    (hmod : (18446744073709551616 + len - 8) % 18446744073709551616 = len - 8)
    (hreadv : p + 8 + (len - 8) ≤ s.size)
    (hvalid : isValidBoxFileType (len - 8) (bytesFrom s (p + 8) (len - 8)) = true) :
    psTop (fuel + 1) ⟨s, p, false⟩ prevLen prevTy sigF =
      psTop fuel ⟨s, p + len, false⟩ len tyFtyp sigF := by
  simp only [psTop, readN_at hread]
  simp only [bytesFrom_length, getLongAt_bytesFrom0 (show (4:Nat) ≤ 8 by omega),
    getLongAt_bytesFrom4 (le_refl 8), hlen, hty]
  rw [if_neg hprev]
  rw [if_neg (show ¬(8 < 8) by omega)]
  rw [if_neg (not_not_intro henf)]
  rw [if_neg (show ¬(tyFtyp = tyClose) by decide)]
  simp only [psDispatch, hmod]
  rw [if_neg (show ¬(tyFtyp = tySig) by decide)]
  simp only [if_true]
  rw [readN_at hreadv]
  simp only [hvalid, if_true, Except.bind, seekTo]
  have harith : p + 8 - 8 + len = p + len := by omega
  rw [harith]

theorem psTop_step_jp2h_err (fuel prevLen prevTy len : Nat) (s : Stream) (p : Nat)
    (sigF : Bool) (e : Err)
    (hprev : ¬(prevLen = 0 ∨ prevTy = tyClose))
    (hread : p + 8 ≤ s.size)
    (hlen : getLong4 (s.byte p) (s.byte (p + 1)) (s.byte (p + 2)) (s.byte (p + 3)) = len)
    (hty : getLong4 (s.byte (p + 4)) (s.byte (p + 5)) (s.byte (p + 6)) (s.byte (p + 7)) = tyJp2h)
    (henf : len ≤ 8 + s.size - (p + 8))
    (herr : psSub (p + 8) len fuel ⟨s, p + 8, false⟩ = .error e) :
    psTop (fuel + 1) ⟨s, p, false⟩ prevLen prevTy sigF = .error e := by
  simp only [psTop, readN_at hread]
  simp only [bytesFrom_length, getLongAt_bytesFrom0 (show (4:Nat) ≤ 8 by omega),
    getLongAt_bytesFrom4 (le_refl 8), hlen, hty]
  rw [if_neg hprev]
  rw [if_neg (show ¬(8 < 8) by omega)]
  rw [if_neg (not_not_intro henf)]
  rw [if_neg (show ¬(tyJp2h = tyClose) by decide)]
  simp only [psDispatch]
  rw [if_neg (show ¬(tyJp2h = tySig) by decide)]
  rw [if_neg (show ¬(tyJp2h = tyFtyp) by decide)]
  simp only [if_true]
  rw [herr]
  rfl

theorem psSub_colr_reject (position boxLen fuel subLen v : Nat) (s : Stream) (p : Nat)
    (hread : p + 8 ≤ s.size)
    (hcond : p + 8 < position + boxLen)
    (hsl : getLong4 (s.byte p) (s.byte (p + 1)) (s.byte (p + 2)) (s.byte (p + 3)) = subLen)
    (hst : getLong4 (s.byte (p + 4)) (s.byte (p + 5)) (s.byte (p + 6)) (s.byte (p + 7)) = tyColr)
    (hbnd : ¬(subLen < 8 ∨ subLen > s.size - (p + 8)))
    (hreadd : p + 8 + (subLen - 8) ≤ s.size)
    (h7 : 3 + 4 ≤ subLen - 8)
    (hmeth : s.byte (p + 8) = 1)
    (henum : getLong4 (s.byte (p + 11)) (s.byte (p + 12)) (s.byte (p + 13)) (s.byte (p + 14)) = v)
    (hv16 : v ≠ 16) (hv17 : v ≠ 17) :
    psSub position boxLen (fuel + 1) ⟨s, p, false⟩ = .error .corrupted := by
  simp only [psSub, readN_at hread]
  simp only [bytesFrom_length, getLongAt_bytesFrom0 (show (4:Nat) ≤ 8 by omega),
    getLongAt_bytesFrom4 (le_refl 8), hsl, hst]
  rw [if_neg (show ¬(8 < 8 ∨ ¬(p + 8 < position + boxLen)) by push_neg; exact ⟨by omega, hcond⟩)]
  rw [if_neg hbnd]
  rw [readN_at hreadd]
  rw [if_neg (show ¬(tyColr = tyIhdr) by decide)]
  simp only [if_true]
  rw [if_neg (not_not_intro h7)]
  rw [byteAt_bytesFrom0 (by omega), hmeth]
  rw [if_pos rfl]
  rw [getLongAt_bytesFrom3 (by omega)]
  have hn : p + 8 + 3 = p + 11 := by omega
  have hn4 : p + 8 + 4 = p + 12 := by omega
  have hn5 : p + 8 + 5 = p + 13 := by omega
  have hn6 : p + 8 + 6 = p + 14 := by omega
  rw [hn, hn4, hn5, hn6, henum]
  rw [show colrCheckE v = Except.error Err.corrupted from by
    unfold colrCheckE
    rw [if_neg]
    push_neg
    exact ⟨hv16, hv17⟩]
  rfl

/-! ## `Jp2Image::encodeJp2Header` (src/src/jp2image.cpp lines 639-717)

Re-encodes the JP2 Header superbox, replacing the first Color Specification
sub-box.  The scratch buffer `output` is modelled as a zero-filled byte list
written with `writeAt` (the C++ buffer is uninitialised, but every byte that
reaches the returned `outBuf` in the runs below is written first). -/

/-- The 15-byte default Color Spec payload written when no ICC profile is
defined (line 684). -/
def pad15 : Bytes :=
  [0x01, 0x00, 0x00, 0x00, 0x00, 0x00, 0x10, 0x00, 0x00, 0x05, 0x1c,
   0x75, 0x75, 0x69, 0x64]

/-- The 3 bytes `02 00 00` preceding the ICC profile (line 692). -/
def pad3 : Bytes := [0x02, 0x00, 0x00]

/-- The sub-box loop of `encodeJp2Header` (lines 653-709): `count`/`inlen`
track the read offset into `boxBuf`, `outlen` the write offset into `output`.
On the first Color Spec sub-box it writes the replacement and stops
(`bWroteColor`); the returned pair is the final `(outlen, output)`. -/
def encLoop (boxBuf : Bytes) (icc : Option Bytes) (osize len : Nat) :
    Nat → Nat → Nat → Nat → Bytes → Except Err (Nat × Bytes)
  | 0, _, _, _, _ => .error .fuelExhausted
  | fuel + 1, count, outlen, inlen, output =>
    if count < len then
      -- enforce(sizeof(Jp2BoxHeader) <= length - count)
      if ¬(8 ≤ len - count) then .error .corrupted
      else
        let subLen := getLongAt boxBuf count
        let subTy := getLongAt boxBuf (count + 4)
        if ¬(0 < subLen) then .error .corrupted
        else if ¬(subLen ≤ len - count) then .error .corrupted
        else if subTy = tyColr then
          match icc with
          | none =>
            -- newBox.length := psize = 15; newlen stays subBox.length
            if ¬(subLen ≤ osize - outlen) then .error .corrupted
            else
              let output1 := writeAt output outlen (ul2Data 15 ++ ul2Data subTy)
              let output2 := writeAt output1 (outlen + 8) pad15
              .ok (outlen + subLen, output2)
          | some ic =>
            -- newlen := sizeof(newBox) + psize + iccProfile.size_ (uint32)
            let newlen := (8 + 3 + ic.length) % 4294967296
            if ¬(newlen ≤ osize - outlen) then .error .corrupted
            else
              let output1 := writeAt output outlen (ul2Data newlen ++ ul2Data subTy)
              let output2 := writeAt output1 (outlen + 8) pad3
              let output3 := writeAt output2 (outlen + 11) ic
              .ok (outlen + newlen, output3)
        else
          if ¬(subLen ≤ osize - outlen) then .error .corrupted
          else
            let output1 := writeAt output outlen ((boxBuf.drop inlen).take subLen)
            encLoop boxBuf icc osize len fuel (count + subLen) (outlen + subLen)
              (inlen + subLen) output1
    else .ok (outlen, output)

/-- `Jp2Image::encodeJp2Header`.  `icc = none` models
`iccProfileDefined() == false`. -/
def encodeJp2Header (boxBuf : Bytes) (icc : Option Bytes) : Except Err Bytes :=
  let iccSize := match icc with | none => 0 | some ic => ic.length
  let osize := boxBuf.length + iccSize + 100
  if ¬(8 ≤ osize) then .error .corrupted
  else
    let len := getLongAt boxBuf 0
    if ¬(len ≤ osize) then .error .corrupted
    else
      match encLoop boxBuf icc osize len (len + 1) 8 8 8 (List.replicate osize 0) with
      | .error e => .error e
      | .ok (outlen, output) =>
        -- outBuf.alloc(outlen); header rewritten with type jp2h, length outlen
        .ok (writeAt (output.take outlen) 0 (ul2Data outlen ++ ul2Data tyJp2h))

/-! ## `Jp2Image::doWriteMetadata` (src/src/jp2image.cpp lines 723-949)

The external metadata codecs are collaborators specified by their byte
contracts; their outputs enter the model as `WParams`. -/

/-- The image state consumed by the rewriter: store counts, the blobs the
Exif/IPTC encoders produce for them, the XMP packet handling
(`writeXmpFromPacket`, the retained packet, and the packet as left by
`XmpParser::encode`), and the optional ICC profile. -/
structure WParams where
  exifCount : Nat
  exifBlob : Bytes
  iptcCount : Nat
  iptcBlob : Bytes
  xmpFromPacket : Bool
  xmpPacket : Bytes
  xmpEncoded : Bytes
  icc : Option Bytes

/-- The XMP packet at emission time (lines 876-882): re-encoded unless
`writeXmpFromPacket()` is set. -/
def xmpFinal (p : WParams) : Bytes :=
  if p.xmpFromPacket then p.xmpPacket else p.xmpEncoded

/-- A fresh metadata UUID box as assembled by the `memcpy` sequence at lines
837-843 (and the analogous IPTC/XMP blocks): a zero-filled `DataBuf` of size
8 + 16 + payload written at offsets 0 (big-endian length), 4 ('uuid'),
8 (the UUID), 24 (the payload). -/
def mkUuidBoxSrc (u payload : Bytes) : Bytes :=
  writeAt (writeAt (writeAt (writeAt (List.replicate (24 + payload.length) 0) 0
    (ul2Data (24 + payload.length))) 4 (ul2Data tyUuid)) 8 u) 24 payload

/-- The fresh UUID boxes written immediately after the re-encoded JP2 Header
box, in the fixed order Exif, IPTC, XMP (lines 826-902). -/
def metaBoxes (p : WParams) : Bytes :=
  (if 0 < p.exifCount ∧ p.exifBlob ≠ [] then mkUuidBoxSrc exifUuidB p.exifBlob else []) ++
  (if 0 < p.iptcCount ∧ p.iptcBlob ≠ [] then mkUuidBoxSrc iptcUuidB p.iptcBlob else []) ++
  (if xmpFinal p ≠ [] then mkUuidBoxSrc xmpUuidB (xmpFinal p) else [])

/-- True when the 16 bytes at offset 8 of the box equal one of the three
metadata UUIDs (the three `memcmp` calls at lines 909-917). -/
def isMetaUuid (chunk : Bytes) : Bool :=
  let u := (chunk.drop 8).take 16
  u == exifUuidB || u == iptcUuidB || u == xmpUuidB

/-- What the body of the `doWriteMetadata` loop appends to the sink for one
box `chunk` (header and payload bytes as read from the input), lines
815-942. -/
def emitChunk (p : WParams) (chunk : Bytes) : Except Err Bytes :=
  let ty := getLongAt chunk 4
  if ty = tyJp2h then
    match encodeJp2Header chunk p.icc with
    | .error e => .error e
    | .ok henc => .ok (henc ++ metaBoxes p)
  else if ty = tyUuid then
    -- enforce(boxBuf.size_ >= 24)
    if chunk.length < 24 then .error .corrupted
    else if isMetaUuid chunk then .ok [] else .ok chunk
  else .ok chunk

/-- The box loop of `doWriteMetadata` (lines 755-943): reads each box whole
(`boxBuf`), dispatches, and appends the emitted bytes to the sink `acc`.
The loop only reads from the source stream and only writes to the sink. -/
def wLoop (p : WParams) : Nat → Rdr → Bytes → Except Err Bytes
  | 0, _, _ => .error .fuelExhausted
  | fuel + 1, r, acc =>
    if r.pos < r.str.size then
      let q := readN r 8
      let bh := q.1
      let r1 := q.2
      if bh.length < 8 then .error .inputDataReadFailed
      else
        let len0 := getLongAt bh 0
        -- box.length == 0: the rest of the file is one final box
        let len := if len0 = 0 then r1.str.size - r1.pos + 8 else len0
        if len < 8 then .error .corrupted
        else if ¬(len - 8 ≤ r1.str.size - r1.pos) then .error .corrupted
        else
          let w := readN r1 (len - 8)
          if w.1.length < len - 8 then .error .inputDataReadFailed
          else
            match emitChunk p (bh ++ w.1) with
            | .error e => .error e
            | .ok piece => wLoop p fuel w.2 (acc ++ piece)
    else .ok acc

/-- `Jp2Image::doWriteMetadata` on the data `d` of the source stream:
signature check with `advance = true`, the 12-byte signature written first,
then the box loop.  Returns the sink contents. -/
def doWriteMetadataL (p : WParams) (d : Bytes) : Except Err Bytes :=
  let r0 := rdrOfList d
  let q := isJp2Type r0 true
  if !q.1 then
    if q.2.eofFlag then .error .inputDataReadFailed
    else .error .noImageInInputData
  else wLoop p (d.length + 1) q.2 jp2SigBytes

/-- `Jp2Image::writeMetadata` (lines 618-631): the rewrite goes to a fresh
in-memory sink; only after `doWriteMetadata` returns without error is the
original stream replaced (`io_->transfer(*tempIo)`). -/
def writeMetadata (p : WParams) (d : Bytes) : (Except Err Unit) × Bytes :=
  match doWriteMetadataL p d with
  | .error e => (.error e, d)
  | .ok out => (.ok (), out)

/-- The decomposition of the input (from offset 12) into whole top-level
boxes, mirroring exactly the reads and checks of the `wLoop` chunking. -/
def chunksF : Nat → Rdr → Option (List Bytes)
  | 0, _ => none
  | fuel + 1, r =>
    if r.pos < r.str.size then
      let q := readN r 8
      let bh := q.1
      let r1 := q.2
      if bh.length < 8 then none
      else
        let len0 := getLongAt bh 0
        let len := if len0 = 0 then r1.str.size - r1.pos + 8 else len0
        if len < 8 then none
        else if ¬(len - 8 ≤ r1.str.size - r1.pos) then none
        else
          let w := readN r1 (len - 8)
          if w.1.length < len - 8 then none
          else
            match chunksF fuel w.2 with
            | none => none
            | some cs => some ((bh ++ w.1) :: cs)
    else some []

/-- The top-level boxes of file `d` (after the 12-byte signature). -/
def chunksOfFile (d : Bytes) : Option (List Bytes) :=
  chunksF (d.length + 1) ⟨⟨fun i => byteAt d i, d.length⟩, 12, false⟩

/-- The bytes `emitChunk` contributes for one box when it succeeds. -/
def emitOk (p : WParams) (c : Bytes) : Bytes :=
  match emitChunk p c with
  | .ok b => b
  | .error _ => []

/-- When the rewrite loop succeeds, its output is the accumulator followed by
the per-box emissions of the input's top-level boxes, in stream order, and
every box was emitted without error. -/
theorem wLoop_decomp (p : WParams) : ∀ fuel r acc out,
    wLoop p fuel r acc = .ok out →
    ∃ cs, chunksF fuel r = some cs ∧
      out = acc ++ (cs.map (emitOk p)).join ∧
      ∀ c ∈ cs, ∃ b, emitChunk p c = .ok b := by
  intro fuel
  induction fuel with
  | zero =>
    intro r acc out h
    simp [wLoop] at h
  | succ n ih =>
    intro r acc out h
    simp only [wLoop] at h
    simp only [chunksF]
    by_cases h1 : r.pos < r.str.size
    · rw [if_pos h1] at h
      rw [if_pos h1]
      by_cases h2 : (readN r 8).1.length < 8
      · rw [if_pos h2] at h
        simp at h
      · rw [if_neg h2] at h
        rw [if_neg h2]
        by_cases h3 : (if getLongAt (readN r 8).1 0 = 0
            then (readN r 8).2.str.size - (readN r 8).2.pos + 8
            else getLongAt (readN r 8).1 0) < 8
        · rw [if_pos h3] at h
          simp at h
        · rw [if_neg h3] at h
          rw [if_neg h3]
          by_cases h4 : ¬((if getLongAt (readN r 8).1 0 = 0
              then (readN r 8).2.str.size - (readN r 8).2.pos + 8
              else getLongAt (readN r 8).1 0) - 8 ≤
              (readN r 8).2.str.size - (readN r 8).2.pos)
          · rw [if_pos h4] at h
            simp at h
          · rw [if_neg h4] at h
            rw [if_neg h4]
            by_cases h5 : (readN (readN r 8).2 ((if getLongAt (readN r 8).1 0 = 0
                then (readN r 8).2.str.size - (readN r 8).2.pos + 8
                else getLongAt (readN r 8).1 0) - 8)).1.length <
                (if getLongAt (readN r 8).1 0 = 0
                then (readN r 8).2.str.size - (readN r 8).2.pos + 8
                else getLongAt (readN r 8).1 0) - 8
            · rw [if_pos h5] at h
              simp at h
            · rw [if_neg h5] at h
              rw [if_neg h5]
              cases hec : emitChunk p ((readN r 8).1 ++ (readN (readN r 8).2
                  ((if getLongAt (readN r 8).1 0 = 0
                  then (readN r 8).2.str.size - (readN r 8).2.pos + 8
                  else getLongAt (readN r 8).1 0) - 8)).1) with
              | error e =>
                rw [hec] at h
                simp at h
              | ok piece =>
                rw [hec] at h
                obtain ⟨cs, hcs, hout, hall⟩ := ih _ _ _ h
                refine ⟨((readN r 8).1 ++ (readN (readN r 8).2
                  ((if getLongAt (readN r 8).1 0 = 0
                  then (readN r 8).2.str.size - (readN r 8).2.pos + 8
                  else getLongAt (readN r 8).1 0) - 8)).1) :: cs, ?_, ?_, ?_⟩
                · rw [hcs]
                · rw [hout]
                  simp only [List.map_cons, List.join, List.append_assoc]
                  have : emitOk p ((readN r 8).1 ++ (readN (readN r 8).2
                      ((if getLongAt (readN r 8).1 0 = 0
                      then (readN r 8).2.str.size - (readN r 8).2.pos + 8
                      else getLongAt (readN r 8).1 0) - 8)).1) = piece := by
                    unfold emitOk
                    rw [hec]
                  rw [this]
                  simp
                · intro c hc
                  rcases List.mem_cons.mp hc with hc | hc
                  · refine ⟨piece, ?_⟩
                    rw [hc]
                    exact hec
                  · exact hall c hc
    · rw [if_neg h1] at h
      rw [if_neg h1]
      simp at h
      exact ⟨[], rfl, by simp [h], by simp⟩

/-- A successful `isJp2Type(io, true)` on a stream opened at position 0
leaves the reader just after the 12 signature bytes. -/
theorem isJp2Type_adv_true {d : Bytes} {r2 : Rdr}
    (h : isJp2Type (rdrOfList d) true = (true, r2)) :
    r2 = ⟨⟨fun i => byteAt d i, d.length⟩, 12, false⟩ := by
  by_cases hlen : d.length < 12
  · exfalso
    simp only [isJp2Type, readN, rdrOfList, Nat.sub_zero, Bool.false_or] at h
    rw [decide_eq_true hlen] at h
    simp at h
  · simp only [isJp2Type, readN, rdrOfList, Nat.sub_zero, Bool.false_or] at h
    rw [decide_eq_false (by omega : ¬(d.length < 12))] at h
    simp only [Bool.false_eq_true, if_false] at h
    by_cases hm : (bytesFrom ⟨fun i => byteAt d i, d.length⟩ 0 (min 12 d.length) ==
        jp2SigBytes) = true
    · rw [hm] at h
      simp only [Bool.not_true, Bool.or_self, if_false] at h
      have := congrArg Prod.snd h
      simp at this
      rw [← this]
      have hmin : min 12 d.length = 12 := by omega
      simp [hmin]
    · rw [Bool.not_eq_true] at hm
      rw [hm] at h
      simp at h

theorem writeAt_exact (buf pre bs rest : Bytes) (off : Nat)
    (hbuf : buf = pre ++ rest) (hoff : off = pre.length)
    (h : bs.length ≤ rest.length) :
    writeAt buf off bs = pre ++ bs ++ rest.drop bs.length := by
  subst hbuf hoff
  unfold writeAt
  rw [List.take_left]
  rw [List.length_append]
  rw [Nat.add_sub_cancel_left]
  rw [List.take_of_length_le h]
  congr 1
  rw [List.drop_append_eq_append_drop]
  rw [List.drop_of_length_le (by omega)]
  simp

theorem drop_replicate (n i : Nat) (a : Nat) :
    (List.replicate n a).drop i = List.replicate (n - i) a := by
  induction i generalizing n with
  | zero => simp
  | succ j ih =>
    cases n with
    | zero => simp
    | succ m =>
      simp only [List.replicate_succ, List.drop_succ_cons, ih]
      congr 1
      omega

theorem ul2Data_length (v : Nat) : (ul2Data v).length = 4 := rfl

theorem mkUuidBoxSrc_eq (u payload : Bytes) (hu : u.length = 16) :
    mkUuidBoxSrc u payload =
      ul2Data (24 + payload.length) ++ ul2Data tyUuid ++ u ++ payload := by
  unfold mkUuidBoxSrc
  rw [writeAt_exact (List.replicate (24 + payload.length) 0) []
    (ul2Data (24 + payload.length)) (List.replicate (24 + payload.length) 0) 0
    (by simp) (by simp)
    (by simp only [ul2Data_length, List.length_replicate]; omega)]
  rw [drop_replicate, ul2Data_length]
  simp only [List.nil_append]
  rw [writeAt_exact _ (ul2Data (24 + payload.length)) (ul2Data tyUuid)
    (List.replicate (24 + payload.length - 4) 0) 4
    (by rfl) (by rw [ul2Data_length])
    (by simp only [ul2Data_length, List.length_replicate]; omega)]
  rw [drop_replicate, ul2Data_length]
  rw [writeAt_exact _ (ul2Data (24 + payload.length) ++ ul2Data tyUuid) u
    (List.replicate (24 + payload.length - 4 - 4) 0) 8
    (by rw [List.append_assoc]) (by simp only [List.length_append, ul2Data_length])
    (by simp only [List.length_replicate, hu]; omega)]
  rw [drop_replicate, hu]
  rw [writeAt_exact _ (ul2Data (24 + payload.length) ++ ul2Data tyUuid ++ u) payload
    (List.replicate (24 + payload.length - 4 - 4 - 16) 0) 24
    (by rw [List.append_assoc, List.append_assoc])
    (by simp only [List.length_append, ul2Data_length, hu])
    (by simp only [List.length_replicate]; omega)]
  rw [drop_replicate]
  have h0 : 24 + payload.length - 4 - 4 - 16 - payload.length = 0 := by omega
  rw [h0]
  simp

/-- C3: during write_metadata's rewrite the output is the signature followed
by the per-box emissions in original stream order, where every top-level Uuid
box whose UUID is one of the three metadata UUIDs is dropped (contributes no
bytes) and every Uuid box with any other UUID is copied to the output
byte-exactly. -/
theorem claim_C3_uuid_rewrite (p : WParams) (d out : Bytes) (cs : List Bytes)
    (h1 : doWriteMetadataL p d = .ok out)
    (h2 : chunksOfFile d = some cs) :
    out = jp2SigBytes ++ (cs.map (emitOk p)).join
    ∧ (∀ c ∈ cs, getLongAt c 4 = tyUuid → isMetaUuid c = true → emitOk p c = [])
    ∧ (∀ c ∈ cs, getLongAt c 4 = tyUuid → isMetaUuid c = false → emitOk p c = c) := by
  rcases hq : isJp2Type (rdrOfList d) true with ⟨b, r2⟩
  simp only [doWriteMetadataL, hq] at h1
  cases b with
  | false =>
    simp only [Bool.not_false, if_true] at h1
    by_cases he : r2.eofFlag
    · rw [if_pos he] at h1
      cases h1
    · rw [if_neg he] at h1
      cases h1
  | true =>
    simp only [Bool.not_true, Bool.false_eq_true, if_false] at h1
    have hr2 := isJp2Type_adv_true hq
    rw [hr2] at h1
    obtain ⟨cs', hcs', hout, hall⟩ := wLoop_decomp p (d.length + 1) _ _ _ h1
    have hchunks : chunksOfFile d = some cs' := hcs'
    rw [h2] at hchunks
    have hcseq : cs' = cs := by
      injection hchunks with h
      exact h.symm
    subst hcseq
    refine ⟨hout, ?_, ?_⟩
    · intro c hc hty hmeta
      obtain ⟨bb, hbb⟩ := hall c hc
      unfold emitOk
      unfold emitChunk at hbb ⊢
      rw [hty] at hbb ⊢
      rw [if_neg (show ¬(tyUuid = tyJp2h) by decide)] at hbb ⊢
      rw [if_pos rfl] at hbb ⊢
      by_cases hlen : c.length < 24
      · rw [if_pos hlen] at hbb
        cases hbb
      · rw [if_neg hlen] at hbb ⊢
        rw [hmeta] at hbb ⊢
        simp at hbb ⊢
    · intro c hc hty hmeta
      obtain ⟨bb, hbb⟩ := hall c hc
      unfold emitOk
      unfold emitChunk at hbb ⊢
      rw [hty] at hbb ⊢
      rw [if_neg (show ¬(tyUuid = tyJp2h) by decide)] at hbb ⊢
      rw [if_pos rfl] at hbb ⊢
      by_cases hlen : c.length < 24
      · rw [if_pos hlen] at hbb
        cases hbb
      · rw [if_neg hlen] at hbb ⊢
        rw [hmeta] at hbb ⊢
        simp at hbb ⊢

/-- C4: in write_metadata's rewrite, each JP2 Header box is followed
immediately by fresh UUID boxes in the fixed order Exif, IPTC, XMP, each
emitted only when the corresponding metadata is non-empty, and each laid out
as 4-byte big-endian length, 4-byte type 'uuid', the 16-byte UUID, then the
payload, with length = 8 + 16 + payload_size. -/
theorem claim_C4_metadata_emission (p : WParams) (d out : Bytes) (cs : List Bytes)
    (h1 : doWriteMetadataL p d = .ok out)
    (h2 : chunksOfFile d = some cs) :
    out = jp2SigBytes ++ (cs.map (emitOk p)).join
    ∧ ∀ c ∈ cs, getLongAt c 4 = tyJp2h →
      ∃ henc, encodeJp2Header c p.icc = .ok henc ∧
        emitOk p c = henc
          ++ (if 0 < p.exifCount ∧ p.exifBlob ≠ [] then
                ul2Data (8 + 16 + p.exifBlob.length) ++ ul2Data tyUuid ++ exifUuidB ++ p.exifBlob
              else [])
          ++ (if 0 < p.iptcCount ∧ p.iptcBlob ≠ [] then
                ul2Data (8 + 16 + p.iptcBlob.length) ++ ul2Data tyUuid ++ iptcUuidB ++ p.iptcBlob
              else [])
          ++ (if xmpFinal p ≠ [] then
                ul2Data (8 + 16 + (xmpFinal p).length) ++ ul2Data tyUuid ++ xmpUuidB ++ xmpFinal p
              else []) := by
  rcases hq : isJp2Type (rdrOfList d) true with ⟨b, r2⟩
  simp only [doWriteMetadataL, hq] at h1
  cases b with
  | false =>
    simp only [Bool.not_false, if_true] at h1
    by_cases he : r2.eofFlag
    · rw [if_pos he] at h1
      cases h1
    · rw [if_neg he] at h1
      cases h1
  | true =>
    simp only [Bool.not_true, Bool.false_eq_true, if_false] at h1
    have hr2 := isJp2Type_adv_true hq
    rw [hr2] at h1
    obtain ⟨cs', hcs', hout, hall⟩ := wLoop_decomp p (d.length + 1) _ _ _ h1
    have hchunks : chunksOfFile d = some cs' := hcs'
    rw [h2] at hchunks
    have hcseq : cs' = cs := by
      injection hchunks with h
      exact h.symm
    subst hcseq
    refine ⟨hout, ?_⟩
    intro c hc hty
    obtain ⟨bb, hbb⟩ := hall c hc
    unfold emitChunk at hbb
    rw [hty, if_pos rfl] at hbb
    cases henc : encodeJp2Header c p.icc with
    | error e =>
      rw [henc] at hbb
      cases hbb
    | ok hv =>
      rw [henc] at hbb
      refine ⟨hv, rfl, ?_⟩
      have hemit : emitOk p c = hv ++ metaBoxes p := by
        unfold emitOk emitChunk
        rw [hty, if_pos rfl, henc]
      rw [hemit]
      unfold metaBoxes
      rw [mkUuidBoxSrc_eq exifUuidB p.exifBlob rfl,
        mkUuidBoxSrc_eq iptcUuidB p.iptcBlob rfl,
        mkUuidBoxSrc_eq xmpUuidB (xmpFinal p) rfl]
      rw [show (24 : Nat) + p.exifBlob.length = 8 + 16 + p.exifBlob.length by omega]
      rw [show (24 : Nat) + p.iptcBlob.length = 8 + 16 + p.iptcBlob.length by omega]
      rw [show (24 : Nat) + (xmpFinal p).length = 8 + 16 + (xmpFinal p).length by omega]
      simp [List.append_assoc]

/-! ## Stepping lemmas for the `encodeJp2Header` sub-box loop -/

theorem encLoop_step_copy (boxBuf : Bytes) (icc : Option Bytes)
    (osize len fuel count outlen inlen subLen subTy : Nat) (output : Bytes)
    (hc : count < len) (h8 : 8 ≤ len - count)
    (hsl : getLongAt boxBuf count = subLen) (hst : getLongAt boxBuf (count + 4) = subTy)
    (h0 : 0 < subLen) (hle : subLen ≤ len - count) (hnc : subTy ≠ tyColr)
    (hcap : subLen ≤ osize - outlen) :
    encLoop boxBuf icc osize len (fuel + 1) count outlen inlen output =
      encLoop boxBuf icc osize len fuel (count + subLen) (outlen + subLen)
        (inlen + subLen) (writeAt output outlen ((boxBuf.drop inlen).take subLen)) := by
  simp only [encLoop, hsl, hst]
  rw [if_pos hc]
  rw [if_neg (not_not_intro h8)]
  rw [if_neg (not_not_intro h0)]
  rw [if_neg (not_not_intro hle)]
  rw [if_neg hnc]
  rw [if_neg (not_not_intro hcap)]

theorem encLoop_step_colr_some (boxBuf ic : Bytes)
    (osize len fuel count outlen inlen subLen : Nat) (output : Bytes)
    (hc : count < len) (h8 : 8 ≤ len - count)
    (hsl : getLongAt boxBuf count = subLen)
    (hst : getLongAt boxBuf (count + 4) = tyColr)
    (h0 : 0 < subLen) (hle : subLen ≤ len - count)
    (hcap : (8 + 3 + ic.length) % 4294967296 ≤ osize - outlen) :
    encLoop boxBuf (some ic) osize len (fuel + 1) count outlen inlen output =
      .ok (outlen + (8 + 3 + ic.length) % 4294967296,
        writeAt (writeAt (writeAt output outlen
            (ul2Data ((8 + 3 + ic.length) % 4294967296) ++ ul2Data tyColr))
          (outlen + 8) pad3) (outlen + 11) ic) := by
  simp only [encLoop, hsl, hst]
  rw [if_pos hc]
  rw [if_neg (not_not_intro h8)]
  rw [if_neg (not_not_intro h0)]
  rw [if_neg (not_not_intro hle)]
  simp only [if_true]
  rw [if_neg (not_not_intro hcap)]

/-! ## Concrete templates and streams for the runs below -/

/-- The JP2 Header superbox of the blank template (bytes 32..76 of
`Jp2Blank`): an ihdr sub-box (22 bytes) followed by a colr sub-box
(15 bytes). -/
def blankJp2hBytes : Bytes :=
  [0x00, 0x00, 0x00, 0x2d, 0x6a, 0x70, 0x32, 0x68,
   0x00, 0x00, 0x00, 0x16, 0x69, 0x68, 0x64, 0x72,
   0x00, 0x00, 0x00, 0x01, 0x00, 0x00, 0x00, 0x01, 0x00, 0x01, 0x07, 0x07, 0x00, 0x00,
   0x00, 0x00, 0x00, 0x0f, 0x63, 0x6f, 0x6c, 0x72,
   0x01, 0x00, 0x00, 0x00, 0x00, 0x00, 0x11]

/-- The ihdr sub-box of the blank template's JP2 Header. -/
def blankIhdrBytes : Bytes :=
  [0x00, 0x00, 0x00, 0x16, 0x69, 0x68, 0x64, 0x72,
   0x00, 0x00, 0x00, 0x01, 0x00, 0x00, 0x00, 0x01, 0x00, 0x01, 0x07, 0x07, 0x00, 0x00]

/-- A well-formed 20-byte File Type box: brand `jp2 `, minor version 0, one
compatibility entry `jp2 `. -/
def ftyp20 : Bytes :=
  [0, 0, 0, 0x14, 0x66, 0x74, 0x79, 0x70, 0x6a, 0x70, 0x32, 0x20, 0, 0, 0, 0,
   0x6a, 0x70, 0x32, 0x20]

/-- Signature box followed by a File Type box whose declared total length
is 2, smaller than the 8-byte header it was read from. -/
def cex1 : Bytes := jp2SigBytes ++ [0, 0, 0, 2, 0x66, 0x74, 0x79, 0x70]

/-- Signature, File Type, then a `jp2c` box with length field 1 and XLBox
(bytes 8..15 of the box) holding the extended length 16: an empty-payload
extended-length box that resolves exactly within the file. -/
def cex2 : Bytes := jp2SigBytes ++ ftyp20 ++
  [0, 0, 0, 1, 0x6a, 0x70, 0x32, 0x63, 0, 0, 0, 0, 0, 0, 0, 16]

/-- Signature, File Type, a JP2 Header holding one Color Spec sub-box with
METH = 1 and enumCS = 20, a zero terminator, then one unknown box. -/
def cex7 : Bytes := jp2SigBytes ++ ftyp20
  ++ [0, 0, 0, 32, 0x6a, 0x70, 0x32, 0x68]
  ++ [0, 0, 0, 16, 0x63, 0x6f, 0x6c, 0x72]
  ++ [1, 0, 0, 0, 0, 0, 20, 0]
  ++ [0, 0, 0, 0, 0, 0, 0, 0]
  ++ [0, 0, 0, 8, 0x62, 0x62, 0x62, 0x62]

/-- A 72-byte stream like `cex7` but with a 16-byte Color Spec sub-box whose
METH byte is 1 and whose enumCS bytes (offsets 51..54) are the parameters. -/
def psColrBase : Bytes := jp2SigBytes ++ ftyp20
  ++ [0, 0, 0, 24, 0x6a, 0x70, 0x32, 0x68]
  ++ [0, 0, 0, 16, 0x63, 0x6f, 0x6c, 0x72]
  ++ [1, 0, 0, 0, 0, 0, 0, 0]
  ++ [0, 0, 0, 8, 0x62, 0x62, 0x62, 0x62]
  ++ [0, 0, 0, 8, 0x63, 0x63, 0x63, 0x63]

/-- The bytes of `psColrBase` with the enumCS field replaced. -/
def psColrByte (e0 e1 e2 e3 i : Nat) : Nat :=
  if i = 51 then e0 else if i = 52 then e1 else if i = 53 then e2
  else if i = 54 then e3 else byteAt psColrBase i

/-- The stream over `psColrByte`. -/
def psColrStream (e0 e1 e2 e3 : Nat) : Stream := ⟨psColrByte e0 e1 e2 e3, 72⟩

/-- A file with signature, File Type, a JP2 Header holding `k` 8-byte
sub-boxes and a zero terminator, then `n` unknown 8-byte top-level boxes. -/
def rmFileByte (k : Nat) (i : Nat) : Nat :=
  if i < 12 then byteAt jp2SigBytes i
  else if i < 32 then byteAt ftyp20 (i - 12)
  else if i < 40 then byteAt (ul2Data (16 + 8 * k) ++ [0x6a, 0x70, 0x32, 0x68]) (i - 32)
  else if i < 40 + 8 * k then byteAt [0, 0, 0, 8, 0x61, 0x61, 0x61, 0x61] ((i - 40) % 8)
  else if i < 48 + 8 * k then 0
  else byteAt [0, 0, 0, 8, 0x62, 0x62, 0x62, 0x62] ((i - (48 + 8 * k)) % 8)

/-- The stream for `rmFileByte k` holding `n` trailing top-level boxes. -/
def rmFile (k n : Nat) : Stream := ⟨rmFileByte k, 48 + 8 * k + 8 * n⟩

/-- The 249-byte `Jp2Blank` template (lines 67-81). -/
def jp2BlankBytes : Bytes :=
  [0x00, 0x00, 0x00, 0x0c, 0x6a, 0x50, 0x20, 0x20, 0x0d, 0x0a, 0x87, 0x0a,
   0x00, 0x00, 0x00, 0x14, 0x66, 0x74, 0x79, 0x70, 0x6a, 0x70, 0x32, 0x20,
   0x00, 0x00, 0x00, 0x00, 0x6a, 0x70, 0x32, 0x20, 0x00, 0x00, 0x00, 0x2d,
   0x6a, 0x70, 0x32, 0x68, 0x00, 0x00, 0x00, 0x16, 0x69, 0x68, 0x64, 0x72,
   0x00, 0x00, 0x00, 0x01, 0x00, 0x00, 0x00, 0x01, 0x00, 0x01, 0x07, 0x07,
   0x00, 0x00, 0x00, 0x00, 0x00, 0x0f, 0x63, 0x6f, 0x6c, 0x72, 0x01, 0x00,
   0x00, 0x00, 0x00, 0x00, 0x11, 0x00, 0x00, 0x00, 0x00, 0x6a, 0x70, 0x32,
   0x63, 0xff, 0x4f, 0xff, 0x51, 0x00, 0x29, 0x00, 0x00, 0x00, 0x00, 0x00,
   0x01, 0x00, 0x00, 0x00, 0x01, 0x00, 0x00, 0x00, 0x00, 0x00, 0x00, 0x00,
   0x00, 0x00, 0x00, 0x00, 0x01, 0x00, 0x00, 0x00, 0x01, 0x00, 0x00, 0x00,
   0x00, 0x00, 0x00, 0x00, 0x00, 0x00, 0x01, 0x07, 0x01, 0x01, 0xff, 0x64,
   0x00, 0x23, 0x00, 0x01, 0x43, 0x72, 0x65, 0x61, 0x74, 0x6f, 0x72, 0x3a,
   0x20, 0x4a, 0x61, 0x73, 0x50, 0x65, 0x72, 0x20, 0x56, 0x65, 0x72, 0x73,
   0x69, 0x6f, 0x6e, 0x20, 0x31, 0x2e, 0x39, 0x30, 0x30, 0x2e, 0x31, 0xff,
   0x52, 0x00, 0x0c, 0x00, 0x00, 0x00, 0x01, 0x00, 0x05, 0x04, 0x04, 0x00,
   0x01, 0xff, 0x5c, 0x00, 0x13, 0x40, 0x40, 0x48, 0x48, 0x50, 0x48, 0x48,
   0x50, 0x48, 0x48, 0x50, 0x48, 0x48, 0x50, 0x48, 0x48, 0x50, 0xff, 0x90,
   0x00, 0x0a, 0x00, 0x00, 0x00, 0x00, 0x00, 0x2d, 0x00, 0x01, 0xff, 0x5d,
   0x00, 0x14, 0x00, 0x40, 0x40, 0x00, 0x00, 0x00, 0x00, 0x00, 0x00, 0x00,
   0x00, 0x00, 0x00, 0x00, 0x00, 0x00, 0x00, 0x00, 0xff, 0x93, 0xcf, 0xb4,
   0x04, 0x00, 0x80, 0x80, 0x80, 0x80, 0x80, 0xff, 0xd9]

/-- The `create` constructor (lines 87-103): with `create` set it writes
`Jp2Blank` to the freshly opened sink, else the sink is untouched. -/
def jp2Create (create : Bool) (sink : Bytes) : Bytes :=
  if create then jp2BlankBytes else sink

/-- The first 12 bytes of a JFIF JPEG file: not the JP2 signature. -/
def jpegBytes : Bytes :=
  [0xff, 0xd8, 0xff, 0xe0, 0, 0x10, 0x4a, 0x46, 0x49, 0x46, 0, 0]

/-- An image state with no metadata at all. -/
def c10p : WParams := ⟨0, [], 0, [], false, [], [], none⟩

/-- Signature followed by a Uuid box of declared length 9: shorter than the
24 bytes a Uuid box must hold, so the rewrite fails. -/
def c10file : Bytes := jp2SigBytes ++ [0, 0, 0, 9, 0x75, 0x75, 0x69, 0x64, 0]

/-- A 16-byte UUID that is none of the three metadata UUIDs. -/
def otherUuid : Bytes := [1, 2, 3, 4, 5, 6, 7, 8, 9, 10, 11, 12, 13, 14, 15, 16]

/-- A top-level Uuid box holding UUID `u` and payload `payload`. -/
def uuidBoxOf (u payload : Bytes) : Bytes :=
  ul2Data (24 + payload.length) ++ [0x75, 0x75, 0x69, 0x64] ++ u ++ payload

/-- An image state with one Exif entry, one IPTC entry and a re-encoded XMP
packet, no ICC profile. -/
def c34p : WParams := ⟨1, [0xE1], 1, [0xD2], false, [0x58], [0x59], none⟩

/-- Signature, File Type, the blank JP2 Header, an Exif-UUID box and a
foreign-UUID box. -/
def c34file : Bytes := jp2SigBytes ++ ftyp20 ++ blankJp2hBytes ++
  uuidBoxOf exifUuidB [0xEE] ++ uuidBoxOf otherUuid [0xAA, 0xBB]

/-- The sink `doWriteMetadata` produces for `c34p` on `c34file`. -/
def c34out : Bytes :=
  match doWriteMetadataL c34p c34file with
  | .ok o => o
  | .error _ => []

/-- The top-level boxes of `c34file`. -/
def c34cs : List Bytes := (chunksOfFile c34file).getD []

/-! ## The claims -/

set_option maxRecDepth 40000 in
/-- C1: contrary to the claim, `readMetadata` computes the File Type box
payload size by the underflowing `size_t` subtraction `box.length - boxSize`
with no `box.length ≥ 8` check: on a file whose File Type box declares total
length 2, a vector of `2 ** 64 - 6` bytes is requested from the allocator,
vastly larger than the whole 20-byte file. -/
theorem claim_C1_length_underflow :
    (readMetadataL cex1).res = .error .corrupted ∧
    (readMetadataL cex1).allocs = [18446744073709551610] ∧
    cex1.length = 20 ∧ getLongAt cex1 12 = 2 ∧
    18446744073709551610 = (18446744073709551616 + 2 - 8) % 18446744073709551616 ∧
    cex1.length < 18446744073709551610 := by decide

set_option maxRecDepth 40000 in
/-- C2: contrary to the claim, the XLBox extended length is never read (the
`box.length == 1` case of `readMetadata` is an empty todo): a box with
length field 1, type `jp2c` and XLBox 16 that resolves exactly within the
file is not accepted and skipped; `readMetadata` throws CorruptedMetadata. -/
theorem claim_C2_xlbox_not_read :
    (readMetadataL cex2).res = .error .corrupted ∧
    cex2.length = 48 ∧
    getLongAt cex2 32 = 1 ∧ getLongAt cex2 36 = 0x6a703263 ∧
    getLongAt cex2 40 = 0 ∧ getLongAt cex2 44 = 16 := by decide

set_option maxRecDepth 40000 in
/-- C5 (amended): the Color Spec sub-box emitted by `encodeJp2Header` with a
defined ICC profile declares length `8 + 3 + icc_length` (header plus
payload); with no ICC profile the emitted sub-box declares length 15 — not
`8 + 15` — and because `outlen` advances by the original sub-box length only
the first 7 bytes of the 15-byte default payload survive in the returned
box. -/
theorem claim_C5_colorspec_length (ic : Bytes) (hic : ic.length ≤ 4294967284) :
    encodeJp2Header blankJp2hBytes (some ic) =
      .ok (ul2Data (41 + ic.length) ++ ul2Data tyJp2h ++ blankIhdrBytes ++
        ul2Data (8 + 3 + ic.length) ++ ul2Data tyColr ++ pad3 ++ ic) ∧
    encodeJp2Header blankJp2hBytes none =
      .ok (ul2Data 45 ++ ul2Data tyJp2h ++ blankIhdrBytes ++
        ul2Data 15 ++ ul2Data tyColr ++ [0x01, 0, 0, 0, 0, 0, 0x10]) := by
  refine ⟨?_, by decide⟩
  have hmod : (8 + 3 + ic.length) % 4294967296 = 8 + 3 + ic.length :=
    Nat.mod_eq_of_lt (by omega)
  simp only [encodeJp2Header]
  rw [show (blankJp2hBytes.length : Nat) = 45 from rfl]
  rw [show getLongAt blankJp2hBytes 0 = 45 from by decide]
  rw [if_neg (not_not_intro (show (8:Nat) ≤ 45 + ic.length + 100 by omega))]
  rw [if_neg (not_not_intro (show (45:Nat) ≤ 45 + ic.length + 100 by omega))]
  have s1 : encLoop blankJp2hBytes (some ic) (45 + ic.length + 100) 45 (45 + 1) 8 8 8
      (List.replicate (45 + ic.length + 100) 0) =
      encLoop blankJp2hBytes (some ic) (45 + ic.length + 100) 45 45 30 30 30
        (writeAt (List.replicate (45 + ic.length + 100) 0) 8 blankIhdrBytes) := by
    have := encLoop_step_copy blankJp2hBytes (some ic) (45 + ic.length + 100) 45 45
      8 8 8 22 tyIhdr (List.replicate (45 + ic.length + 100) 0)
      (by omega) (by omega) (by decide) (by decide) (by omega) (by omega) (by decide)
      (by omega)
    rw [this]
    rfl
  rw [s1]
  have e1 : writeAt (List.replicate (45 + ic.length + 100) 0) 8 blankIhdrBytes =
      List.replicate 8 0 ++ (blankIhdrBytes ++ List.replicate (ic.length + 115) 0) := by
    rw [writeAt_exact (List.replicate (45 + ic.length + 100) 0) (List.replicate 8 0)
      blankIhdrBytes (List.replicate (45 + ic.length + 100 - 8) 0) 8
      (by rw [← List.replicate_add]; congr 1; omega)
      (by simp) (by simp [blankIhdrBytes]; try omega)]
    rw [drop_replicate]
    rw [show (45 + ic.length + 100 - 8) - blankIhdrBytes.length = ic.length + 115 from by
      simp only [blankIhdrBytes, List.length_cons, List.length_nil]
      omega]
    simp only [List.append_assoc]
  rw [e1]
  have s2 : encLoop blankJp2hBytes (some ic) (45 + ic.length + 100) 45 45 30 30 30
      (List.replicate 8 0 ++ (blankIhdrBytes ++ List.replicate (ic.length + 115) 0)) =
      .ok (30 + (8 + 3 + ic.length) % 4294967296,
        writeAt (writeAt (writeAt
          (List.replicate 8 0 ++ (blankIhdrBytes ++ List.replicate (ic.length + 115) 0))
          30 (ul2Data ((8 + 3 + ic.length) % 4294967296) ++ ul2Data tyColr))
          (30 + 8) pad3) (30 + 11) ic) := by
    have := encLoop_step_colr_some blankJp2hBytes ic (45 + ic.length + 100) 45 44
      30 30 30 15
      (List.replicate 8 0 ++ (blankIhdrBytes ++ List.replicate (ic.length + 115) 0))
      (by omega) (by omega) (by decide) (by decide) (by omega) (by omega)
      (by rw [hmod]; omega)
    exact this
  rw [s2, hmod]
  have w1 : writeAt
      (List.replicate 8 0 ++ (blankIhdrBytes ++ List.replicate (ic.length + 115) 0))
      30 (ul2Data (8 + 3 + ic.length) ++ ul2Data tyColr) =
      (List.replicate 8 0 ++ blankIhdrBytes) ++
        ((ul2Data (8 + 3 + ic.length) ++ ul2Data tyColr) ++ List.replicate (ic.length + 107) 0) := by
    rw [writeAt_exact _ (List.replicate 8 0 ++ blankIhdrBytes)
      (ul2Data (8 + 3 + ic.length) ++ ul2Data tyColr) (List.replicate (ic.length + 115) 0) 30
      (by simp only [List.append_assoc]) (by simp [blankIhdrBytes])
      (by simp only [List.length_append, ul2Data_length, List.length_replicate]; omega)]
    rw [drop_replicate]
    rw [show ic.length + 115 - (ul2Data (8 + 3 + ic.length) ++ ul2Data tyColr).length =
      ic.length + 107 from by simp only [List.length_append, ul2Data_length]; omega]
    simp only [List.append_assoc]
  rw [w1]
  have w2 : writeAt ((List.replicate 8 0 ++ blankIhdrBytes) ++
      ((ul2Data (8 + 3 + ic.length) ++ ul2Data tyColr) ++ List.replicate (ic.length + 107) 0))
      (30 + 8) pad3 =
      ((List.replicate 8 0 ++ blankIhdrBytes) ++ (ul2Data (8 + 3 + ic.length) ++ ul2Data tyColr))
        ++ (pad3 ++ List.replicate (ic.length + 104) 0) := by
    rw [writeAt_exact _
      ((List.replicate 8 0 ++ blankIhdrBytes) ++ (ul2Data (8 + 3 + ic.length) ++ ul2Data tyColr))
      pad3 (List.replicate (ic.length + 107) 0) (30 + 8)
      (by simp only [List.append_assoc])
      (by simp [blankIhdrBytes, ul2Data_length])
      (by simp only [pad3, List.length_cons, List.length_nil, List.length_replicate]; omega)]
    rw [drop_replicate]
    rw [show ic.length + 107 - (pad3 : Bytes).length = ic.length + 104 from by
      simp only [pad3, List.length_cons, List.length_nil]
      omega]
    simp only [List.append_assoc]
  rw [w2]
  have w3 : writeAt (((List.replicate 8 0 ++ blankIhdrBytes) ++
      (ul2Data (8 + 3 + ic.length) ++ ul2Data tyColr)) ++
      (pad3 ++ List.replicate (ic.length + 104) 0)) (30 + 11) ic =
      (((List.replicate 8 0 ++ blankIhdrBytes) ++ (ul2Data (8 + 3 + ic.length) ++ ul2Data tyColr))
        ++ pad3) ++ (ic ++ List.replicate 104 0) := by
    rw [writeAt_exact _
      (((List.replicate 8 0 ++ blankIhdrBytes) ++ (ul2Data (8 + 3 + ic.length) ++ ul2Data tyColr))
        ++ pad3) ic (List.replicate (ic.length + 104) 0) (30 + 11)
      (by simp only [List.append_assoc])
      (by simp [blankIhdrBytes, ul2Data_length, pad3])
      (by simp only [List.length_replicate]; omega)]
    rw [drop_replicate]
    rw [show ic.length + 104 - ic.length = 104 from by omega]
    simp only [List.append_assoc]
  rw [w3]
  have ttake : ((((List.replicate 8 0 ++ blankIhdrBytes) ++
      (ul2Data (8 + 3 + ic.length) ++ ul2Data tyColr)) ++ pad3) ++
      (ic ++ List.replicate 104 0)).take (30 + (8 + 3 + ic.length)) =
      ((((List.replicate 8 0 ++ blankIhdrBytes) ++
        (ul2Data (8 + 3 + ic.length) ++ ul2Data tyColr)) ++ pad3) ++ ic) := by
    rw [show (((List.replicate 8 0 ++ blankIhdrBytes) ++
      (ul2Data (8 + 3 + ic.length) ++ ul2Data tyColr)) ++ pad3) ++
      (ic ++ List.replicate 104 0) =
      (((((List.replicate 8 0 ++ blankIhdrBytes) ++
        (ul2Data (8 + 3 + ic.length) ++ ul2Data tyColr)) ++ pad3) ++ ic) ++
        List.replicate 104 0) from by simp only [List.append_assoc]]
    rw [show (30 + (8 + 3 + ic.length)) = ((((List.replicate 8 0 ++ blankIhdrBytes) ++
      (ul2Data (8 + 3 + ic.length) ++ ul2Data tyColr)) ++ pad3) ++ ic).length from by
      simp [blankIhdrBytes, ul2Data_length, pad3]
      omega]
    rw [List.take_left]
  simp only []
  rw [ttake]
  have wf : writeAt ((((List.replicate 8 0 ++ blankIhdrBytes) ++
      (ul2Data (8 + 3 + ic.length) ++ ul2Data tyColr)) ++ pad3) ++ ic) 0
      (ul2Data (30 + (8 + 3 + ic.length)) ++ ul2Data tyJp2h) =
      (ul2Data (30 + (8 + 3 + ic.length)) ++ ul2Data tyJp2h) ++
        (blankIhdrBytes ++ (ul2Data (8 + 3 + ic.length) ++
          (ul2Data tyColr ++ (pad3 ++ ic)))) := by
    rw [writeAt_exact _ [] (ul2Data (30 + (8 + 3 + ic.length)) ++ ul2Data tyJp2h)
      ((((List.replicate 8 0 ++ blankIhdrBytes) ++
        (ul2Data (8 + 3 + ic.length) ++ ul2Data tyColr)) ++ pad3) ++ ic) 0
      (by simp) (by simp)
      (by simp [blankIhdrBytes, ul2Data_length, pad3])]
    rw [show ((((List.replicate 8 0 ++ blankIhdrBytes) ++
      (ul2Data (8 + 3 + ic.length) ++ ul2Data tyColr)) ++ pad3) ++ ic) =
      List.replicate 8 (0:Nat) ++ (blankIhdrBytes ++ (ul2Data (8 + 3 + ic.length) ++
        (ul2Data tyColr ++ (pad3 ++ ic)))) from by simp [List.append_assoc]]
    rw [show (ul2Data (30 + (8 + 3 + ic.length)) ++ ul2Data tyJp2h).length =
      (List.replicate 8 (0:Nat)).length from by simp [ul2Data_length]]
    rw [List.drop_left]
    simp [List.append_assoc]
  rw [wf]
  rw [show (30 + (8 + 3 + ic.length)) = 41 + ic.length from by omega]
  simp [List.append_assoc]

set_option maxRecDepth 40000 in
/-- Witness for C5 on the 4-byte ICC profile `[1, 2, 3, 4]`. -/
theorem claim_C5_colorspec_length_w :
    ([1, 2, 3, 4] : Bytes).length ≤ 4294967284 ∧
    encodeJp2Header blankJp2hBytes (some [1, 2, 3, 4]) =
      .ok (ul2Data (41 + ([1, 2, 3, 4] : Bytes).length) ++ ul2Data tyJp2h ++ blankIhdrBytes ++
        ul2Data (8 + 3 + ([1, 2, 3, 4] : Bytes).length) ++ ul2Data tyColr ++ pad3 ++
        [1, 2, 3, 4]) :=
  ⟨by decide, (claim_C5_colorspec_length [1, 2, 3, 4] (by decide)).1⟩

set_option maxRecDepth 40000 in
/-- Counterexample to C5 as stated: with no ICC profile the emitted Color
Spec sub-box (at offset 30 of the re-encoded JP2 Header) declares length 15,
not `8 + 15`. -/
theorem claim_C5_colorspec_length_cex :
    encodeJp2Header blankJp2hBytes none =
      .ok (ul2Data 45 ++ ul2Data tyJp2h ++ blankIhdrBytes ++
        ul2Data 15 ++ ul2Data tyColr ++ [0x01, 0, 0, 0, 0, 0, 0x10]) ∧
    getLongAt (ul2Data 45 ++ ul2Data tyJp2h ++ blankIhdrBytes ++
      ul2Data 15 ++ ul2Data tyColr ++ [0x01, 0, 0, 0, 0, 0, 0x10]) 30 = 15 ∧
    (15 : Nat) ≠ 8 + 15 := by decide

theorem getLong4_ul2 (v : Nat) (h : v < 4294967296) :
    getLong4 (v / 16777216 % 256) (v / 65536 % 256) (v / 256 % 256) (v % 256) = v := by
  unfold getLong4
  omega

theorem rmFile_size (k n : Nat) : (rmFile k n).size = 48 + 8 * k + 8 * n := rfl

theorem rmFile_byte_hdr (k n r : Nat) (hr : r < 8) :
    (rmFile k n).byte (32 + r) = byteAt (ul2Data (16 + 8 * k) ++ [0x6a, 0x70, 0x32, 0x68]) r := by
  show rmFileByte k (32 + r) = _
  unfold rmFileByte
  rw [if_neg (show ¬(32 + r < 12) by omega)]
  rw [if_neg (show ¬(32 + r < 32) by omega)]
  rw [if_pos (show 32 + r < 40 by omega)]
  congr 1
  omega

theorem rmFile_byte_sub (k n j r : Nat) (hj : j < k) (hr : r < 8) :
    (rmFile k n).byte (40 + 8 * j + r) = byteAt [0, 0, 0, 8, 0x61, 0x61, 0x61, 0x61] r := by
  show rmFileByte k (40 + 8 * j + r) = _
  unfold rmFileByte
  rw [if_neg (show ¬(40 + 8 * j + r < 12) by omega)]
  rw [if_neg (show ¬(40 + 8 * j + r < 32) by omega)]
  rw [if_neg (show ¬(40 + 8 * j + r < 40) by omega)]
  rw [if_pos (show 40 + 8 * j + r < 40 + 8 * k by omega)]
  congr 1
  omega

theorem rmFile_byte_term (k n r : Nat) (hr : r < 8) :
    (rmFile k n).byte (40 + 8 * k + r) = 0 := by
  show rmFileByte k (40 + 8 * k + r) = _
  unfold rmFileByte
  rw [if_neg (show ¬(40 + 8 * k + r < 12) by omega)]
  rw [if_neg (show ¬(40 + 8 * k + r < 32) by omega)]
  rw [if_neg (show ¬(40 + 8 * k + r < 40) by omega)]
  rw [if_neg (show ¬(40 + 8 * k + r < 40 + 8 * k) by omega)]
  rw [if_pos (show 40 + 8 * k + r < 48 + 8 * k by omega)]

theorem rmFile_byte_dummy (k n j r : Nat) (hr : r < 8) :
    (rmFile k n).byte (48 + 8 * k + 8 * j + r) = byteAt [0, 0, 0, 8, 0x62, 0x62, 0x62, 0x62] r := by
  show rmFileByte k (48 + 8 * k + 8 * j + r) = _
  unfold rmFileByte
  rw [if_neg (show ¬(48 + 8 * k + 8 * j + r < 12) by omega)]
  rw [if_neg (show ¬(48 + 8 * k + 8 * j + r < 32) by omega)]
  rw [if_neg (show ¬(48 + 8 * k + 8 * j + r < 40) by omega)]
  rw [if_neg (show ¬(48 + 8 * k + 8 * j + r < 40 + 8 * k) by omega)]
  rw [if_neg (show ¬(48 + 8 * k + 8 * j + r < 48 + 8 * k) by omega)]
  congr 1
  omega

theorem rmFile_byte_sub0 (k n j : Nat) (hj : j < k) :
    (rmFile k n).byte (40 + 8 * j) = 0 := by
  have := rmFile_byte_sub k n j 0 hj (by omega)
  simpa using this

theorem rmFile_byte_term0 (k n : Nat) :
    (rmFile k n).byte (40 + 8 * k) = 0 := by
  have := rmFile_byte_term k n 0 (by omega)
  simpa using this

theorem rmFile_byte_hdr0 (k n : Nat) :
    (rmFile k n).byte 32 = byteAt (ul2Data (16 + 8 * k) ++ [0x6a, 0x70, 0x32, 0x68]) 0 := by
  have := rmFile_byte_hdr k n 0 (by omega)
  simpa using this

theorem rmFile_byte_dummy0 (k n j : Nat) :
    (rmFile k n).byte (48 + 8 * k + 8 * j) = 0 := by
  have := rmFile_byte_dummy k n j 0 (by omega)
  simpa [byteAt] using this

theorem subHdr_len (k n j : Nat) (hj : j < k) :
    getLong4 ((rmFile k n).byte (40 + 8 * j)) ((rmFile k n).byte (40 + 8 * j + 1))
      ((rmFile k n).byte (40 + 8 * j + 2)) ((rmFile k n).byte (40 + 8 * j + 3)) = 8 := by
  rw [rmFile_byte_sub0 k n j hj, rmFile_byte_sub k n j 1 hj (by omega),
    rmFile_byte_sub k n j 2 hj (by omega), rmFile_byte_sub k n j 3 hj (by omega)]
  decide

theorem subHdr_ty (k n j : Nat) (hj : j < k) :
    getLong4 ((rmFile k n).byte (40 + 8 * j + 4)) ((rmFile k n).byte (40 + 8 * j + 5))
      ((rmFile k n).byte (40 + 8 * j + 6)) ((rmFile k n).byte (40 + 8 * j + 7)) = 0x61616161 := by
  rw [rmFile_byte_sub k n j 4 hj (by omega), rmFile_byte_sub k n j 5 hj (by omega),
    rmFile_byte_sub k n j 6 hj (by omega), rmFile_byte_sub k n j 7 hj (by omega)]
  decide

theorem termHdr_len (k n : Nat) :
    getLong4 ((rmFile k n).byte (40 + 8 * k)) ((rmFile k n).byte (40 + 8 * k + 1))
      ((rmFile k n).byte (40 + 8 * k + 2)) ((rmFile k n).byte (40 + 8 * k + 3)) = 0 := by
  rw [rmFile_byte_term0 k n, rmFile_byte_term k n 1 (by omega),
    rmFile_byte_term k n 2 (by omega), rmFile_byte_term k n 3 (by omega)]
  decide

theorem dummyHdr_len (k n j : Nat) :
    getLong4 ((rmFile k n).byte (48 + 8 * k + 8 * j)) ((rmFile k n).byte (48 + 8 * k + 8 * j + 1))
      ((rmFile k n).byte (48 + 8 * k + 8 * j + 2)) ((rmFile k n).byte (48 + 8 * k + 8 * j + 3)) = 8 := by
  rw [rmFile_byte_dummy0 k n j, rmFile_byte_dummy k n j 1 (by omega),
    rmFile_byte_dummy k n j 2 (by omega), rmFile_byte_dummy k n j 3 (by omega)]
  decide

theorem dummyHdr_ty (k n j : Nat) :
    getLong4 ((rmFile k n).byte (48 + 8 * k + 8 * j + 4)) ((rmFile k n).byte (48 + 8 * k + 8 * j + 5))
      ((rmFile k n).byte (48 + 8 * k + 8 * j + 6)) ((rmFile k n).byte (48 + 8 * k + 8 * j + 7)) = 0x62626262 := by
  rw [rmFile_byte_dummy k n j 4 (by omega), rmFile_byte_dummy k n j 5 (by omega),
    rmFile_byte_dummy k n j 6 (by omega), rmFile_byte_dummy k n j 7 (by omega)]
  decide

theorem jp2hHdr_len (k n : Nat) (hk : 16 + 8 * k < 4294967296) :
    getLong4 ((rmFile k n).byte 32) ((rmFile k n).byte (32 + 1))
      ((rmFile k n).byte (32 + 2)) ((rmFile k n).byte (32 + 3)) = 16 + 8 * k := by
  rw [rmFile_byte_hdr0 k n, rmFile_byte_hdr k n 1 (by omega),
    rmFile_byte_hdr k n 2 (by omega), rmFile_byte_hdr k n 3 (by omega)]
  simp only [ul2Data, List.cons_append, byteAt, List.getD_cons_zero, List.getD_cons_succ]
  exact getLong4_ul2 (16 + 8 * k) hk

theorem jp2hHdr_ty (k n : Nat) :
    getLong4 ((rmFile k n).byte (32 + 4)) ((rmFile k n).byte (32 + 5))
      ((rmFile k n).byte (32 + 6)) ((rmFile k n).byte (32 + 7)) = tyJp2h := by
  rw [rmFile_byte_hdr k n 4 (by omega), rmFile_byte_hdr k n 5 (by omega),
    rmFile_byte_hdr k n 6 (by omega), rmFile_byte_hdr k n 7 (by omega)]
  simp only [ul2Data, List.cons_append, byteAt, List.getD_cons_zero, List.getD_cons_succ]
  decide

theorem rmSub_step (k n f j b : Nat) (allocs : List Nat) (hj : j < k) (hb : ¬ b > 1000) :
    rmSub (f + 1) ⟨rmFile k n, 40 + 8 * j, false⟩ (40 + 8 * j) b allocs =
      rmSub f ⟨rmFile k n, 40 + 8 * j + 8, false⟩ (40 + 8 * j + 8) (b + 1) allocs := by
  simp only [rmSub]
  rw [readN_at (show 40 + 8 * j + 8 ≤ (rmFile k n).size by rw [rmFile_size]; omega)]
  simp only [bytesFrom_length, getLongAt_bytesFrom0 (show (4:Nat) ≤ 8 by omega),
    getLongAt_bytesFrom4 (le_refl 8), subHdr_len k n j hj, subHdr_ty k n j hj]
  rw [if_neg (show ¬(8 < 8 ∨ (8:Nat) = 0) by omega)]
  rw [if_neg hb]
  rw [if_neg (show ¬((8:Nat) > (rmFile k n).size) from by rw [rmFile_size]; omega)]
  rw [if_neg (show ¬((0x61616161:Nat) = tyColr ∧ (8:Nat) ≠ 15) from
    fun h => absurd h.1 (by decide))]
  simp only []
  rw [if_neg (show ¬((0x61616161:Nat) = tyIhdr) from by decide)]
  simp only [seekTo]

theorem rmSub_reject (k n f j b : Nat) (allocs : List Nat) (hj : j < k) (hb : b > 1000) :
    rmSub (f + 1) ⟨rmFile k n, 40 + 8 * j, false⟩ (40 + 8 * j) b allocs =
      (.error .corrupted, allocs) := by
  simp only [rmSub]
  rw [readN_at (show 40 + 8 * j + 8 ≤ (rmFile k n).size by rw [rmFile_size]; omega)]
  simp only [bytesFrom_length, getLongAt_bytesFrom0 (show (4:Nat) ≤ 8 by omega),
    getLongAt_bytesFrom4 (le_refl 8), subHdr_len k n j hj, subHdr_ty k n j hj]
  rw [if_neg (show ¬(8 < 8 ∨ (8:Nat) = 0) by omega)]
  rw [if_pos hb]

theorem rmSub_term (k n f b : Nat) (allocs : List Nat) :
    rmSub (f + 1) ⟨rmFile k n, 40 + 8 * k, false⟩ (40 + 8 * k) b allocs =
      (.ok (⟨rmFile k n, 48 + 8 * k, false⟩, b), allocs) := by
  simp only [rmSub]
  rw [readN_at (show 40 + 8 * k + 8 ≤ (rmFile k n).size by rw [rmFile_size]; omega)]
  simp only [bytesFrom_length, getLongAt_bytesFrom0 (show (4:Nat) ≤ 8 by omega),
    termHdr_len k n]
  rw [if_pos (show 8 < 8 ∨ True from Or.inr trivial)]
  rw [show 40 + 8 * k + 8 = 48 + 8 * k from by omega]

theorem rmSub_run (k n : Nat) : ∀ m f b allocs, m ≤ k → m + 1 ≤ f → b ≤ 1001 →
    rmSub f ⟨rmFile k n, 40 + 8 * (k - m), false⟩ (40 + 8 * (k - m)) b allocs =
      (if b + m ≤ 1001 then ((.ok (⟨rmFile k n, 48 + 8 * k, false⟩, b + m) : Except Err (Rdr × Nat)), allocs)
       else (.error .corrupted, allocs)) := by
  intro m
  induction m with
  | zero =>
    intro f b allocs hm hf hb
    cases f with
    | zero => omega
    | succ f2 =>
      rw [Nat.sub_zero]
      rw [rmSub_term k n f2 b allocs]
      rw [if_pos (show b + 0 ≤ 1001 by omega)]
      rw [Nat.add_zero]
  | succ m ih =>
    intro f b allocs hm hf hb
    cases f with
    | zero => omega
    | succ f2 =>
      by_cases hbig : b > 1000
      · rw [rmSub_reject k n f2 (k - (m + 1)) b allocs (by omega) hbig]
        rw [if_neg (show ¬(b + (m + 1) ≤ 1001) by omega)]
      · rw [rmSub_step k n f2 (k - (m + 1)) b allocs (by omega) hbig]
        rw [show 40 + 8 * (k - (m + 1)) + 8 = 40 + 8 * (k - m) from by omega]
        rw [ih f2 (b + 1) allocs (by omega) (by omega) (by omega)]
        rw [show b + 1 + m = b + (m + 1) from by omega]

theorem readN_eof {s : Stream} {p : Nat} {e : Bool} (h : s.size ≤ p) :
    readN ⟨s, p, e⟩ 8 = ([], ⟨s, p, true⟩) := by
  unfold readN
  simp only []
  have h1 : min 8 (s.size - p) = 0 := by omega
  have h2 : decide (s.size - p < 8) = true := by
    simp only [decide_eq_true_eq]
    omega
  rw [h1, h2, Bool.or_true]
  simp [bytesFrom]

theorem rmTop_exit (f b : Nat) (allocs : List Nat) (lastTy : Nat) (sf ff : Bool)
    (s : Stream) (p : Nat) (h : s.size ≤ p) :
    rmTop (f + 1) ⟨s, p, false⟩ b allocs lastTy sf ff = (.ok (), allocs) := by
  simp only [rmTop]
  rw [readN_eof h]
  simp only [List.length_nil]
  rw [if_pos (show 0 < 8 by omega)]

theorem rmTop_step_generic (fuel boxes len ty : Nat) (allocs : List Nat) (lastTy : Nat)
    (sf ff : Bool) (s : Stream) (p : Nat)
    (hread : p + 8 ≤ s.size)
    (hb : ¬ boxes > 1000)
    (hlen : getLong4 (s.byte p) (s.byte (p + 1)) (s.byte (p + 2)) (s.byte (p + 3)) = len)
    (hty : getLong4 (s.byte (p + 4)) (s.byte (p + 5)) (s.byte (p + 6)) (s.byte (p + 7)) = ty)
    (henf : len ≤ 8 + s.size - (p + 8))
    (h0 : len ≠ 0)
    (hsig : ty ≠ tySig) (hftyp : ty ≠ tyFtyp) (hjp2h : ty ≠ tyJp2h) (huuid : ty ≠ tyUuid) :
    rmTop (fuel + 1) ⟨s, p, false⟩ boxes allocs lastTy sf ff =
      rmTop fuel ⟨s, p + len, false⟩ (boxes + 1) allocs ty sf ff := by
  simp only [rmTop]
  rw [readN_at hread]
  simp only [bytesFrom_length, getLongAt_bytesFrom0 (show (4:Nat) ≤ 8 by omega),
    getLongAt_bytesFrom4 (le_refl 8), hlen, hty]
  rw [if_neg (show ¬(8 < 8) by omega)]
  rw [if_neg hb]
  rw [if_neg (not_not_intro henf)]
  rw [if_neg h0]
  rw [if_neg hsig, if_neg hftyp, if_neg hjp2h, if_neg huuid]
  simp only [seekTo]
  rw [show p + 8 - 8 + len = p + len from by omega]

theorem rmTop_reject (fuel boxes : Nat) (allocs : List Nat) (lastTy : Nat)
    (sf ff : Bool) (s : Stream) (p : Nat)
    (hread : p + 8 ≤ s.size)
    (hb : boxes > 1000) :
    rmTop (fuel + 1) ⟨s, p, false⟩ boxes allocs lastTy sf ff =
      (.error .corrupted, allocs) := by
  simp only [rmTop]
  rw [readN_at hread]
  simp only [bytesFrom_length]
  rw [if_neg (show ¬(8 < 8) by omega)]
  rw [if_pos hb]

theorem rmTop_step_sig (fuel boxes : Nat) (allocs : List Nat) (lastTy : Nat) (ff : Bool)
    (s : Stream) (p : Nat)
    (hread : p + 8 ≤ s.size)
    (hb : ¬ boxes > 1000)
    (hlen : getLong4 (s.byte p) (s.byte (p + 1)) (s.byte (p + 2)) (s.byte (p + 3)) = 12)
    (hty : getLong4 (s.byte (p + 4)) (s.byte (p + 5)) (s.byte (p + 6)) (s.byte (p + 7)) = tySig)
    (henf : 12 ≤ 8 + s.size - (p + 8)) :
    rmTop (fuel + 1) ⟨s, p, false⟩ boxes allocs lastTy false ff =
      rmTop fuel ⟨s, p + 12, false⟩ (boxes + 1) allocs tySig true ff := by
  simp only [rmTop]
  rw [readN_at hread]
  simp only [bytesFrom_length, getLongAt_bytesFrom0 (show (4:Nat) ≤ 8 by omega),
    getLongAt_bytesFrom4 (le_refl 8), hlen, hty]
  rw [if_neg (show ¬(8 < 8) by omega)]
  rw [if_neg hb]
  rw [if_neg (not_not_intro henf)]
  rw [if_neg (show (12:Nat) ≠ 0 by omega)]
  simp only [if_true, Bool.false_eq_true, if_false, seekTo]
  rw [show p + 8 - 8 + 12 = p + 12 from by omega]

theorem rmTop_step_ftyp (fuel boxes : Nat) (allocs : List Nat)
    (s : Stream) (p : Nat) (sf : Bool)
    (hread : p + 8 ≤ s.size)
    (hb : ¬ boxes > 1000)
    (hlen : getLong4 (s.byte p) (s.byte (p + 1)) (s.byte (p + 2)) (s.byte (p + 3)) = 20)
    (hty : getLong4 (s.byte (p + 4)) (s.byte (p + 5)) (s.byte (p + 6)) (s.byte (p + 7)) = tyFtyp)
    (henf : 20 ≤ 8 + s.size - (p + 8))
    (hreadv : p + 8 + 12 ≤ s.size)
    (hvalid : isValidBoxFileType 12 (bytesFrom s (p + 8) 12) = true) :
    rmTop (fuel + 1) ⟨s, p, false⟩ boxes allocs tySig sf false =
      rmTop fuel ⟨s, p + 20, false⟩ (boxes + 1) (allocs ++ [12]) tyFtyp sf true := by
  simp only [rmTop]
  rw [readN_at hread]
  simp only [bytesFrom_length, getLongAt_bytesFrom0 (show (4:Nat) ≤ 8 by omega),
    getLongAt_bytesFrom4 (le_refl 8), hlen, hty]
  rw [if_neg (show ¬(8 < 8) by omega)]
  rw [if_neg hb]
  rw [if_neg (not_not_intro henf)]
  rw [if_neg (show (20:Nat) ≠ 0 by omega)]
  rw [if_neg (show tyFtyp ≠ tySig from by decide)]
  simp only [if_true]
  rw [if_neg (show ¬(false = true ∨ tySig ≠ tySig) from by
    intro h
    rcases h with h | h
    · cases h
    · exact h rfl)]
  rw [show (18446744073709551616 + 20 - 8) % 18446744073709551616 = 12 from by omega]
  rw [readN_at hreadv]
  simp only [hvalid, if_true, seekTo]
  rw [show p + 8 - 8 + 20 = p + 20 from by omega]

theorem rmTop_step_jp2h_ok (fuel boxes len : Nat) (allocs allocs2 : List Nat)
    (lastTy bx2 : Nat) (sf ff : Bool) (r2 : Rdr)
    (s : Stream) (p : Nat)
    (hread : p + 8 ≤ s.size)
    (hb : ¬ boxes > 1000)
    (hlen : getLong4 (s.byte p) (s.byte (p + 1)) (s.byte (p + 2)) (s.byte (p + 3)) = len)
    (hty : getLong4 (s.byte (p + 4)) (s.byte (p + 5)) (s.byte (p + 6)) (s.byte (p + 7)) = tyJp2h)
    (henf : len ≤ 8 + s.size - (p + 8))
    (h0 : len ≠ 0)
    (hsub : rmSub fuel ⟨s, p + 8, false⟩ (p + 8) (boxes + 1) allocs = (.ok (r2, bx2), allocs2))
    (hstr : r2.str = s) :
    rmTop (fuel + 1) ⟨s, p, false⟩ boxes allocs lastTy sf ff =
      rmTop fuel ⟨s, p + len, false⟩ bx2 allocs2 tyJp2h sf ff := by
  simp only [rmTop]
  rw [readN_at hread]
  simp only [bytesFrom_length, getLongAt_bytesFrom0 (show (4:Nat) ≤ 8 by omega),
    getLongAt_bytesFrom4 (le_refl 8), hlen, hty]
  rw [if_neg (show ¬(8 < 8) by omega)]
  rw [if_neg hb]
  rw [if_neg (not_not_intro henf)]
  rw [if_neg h0]
  rw [if_neg (show tyJp2h ≠ tySig from by decide)]
  rw [if_neg (show tyJp2h ≠ tyFtyp from by decide)]
  simp only [if_true]
  rw [hsub]
  simp only [seekTo]
  rw [show p + 8 - 8 + len = p + len from by omega, hstr]

theorem rmTop_step_jp2h_err (fuel boxes len : Nat) (allocs allocs2 : List Nat)
    (lastTy : Nat) (sf ff : Bool) (e : Err)
    (s : Stream) (p : Nat)
    (hread : p + 8 ≤ s.size)
    (hb : ¬ boxes > 1000)
    (hlen : getLong4 (s.byte p) (s.byte (p + 1)) (s.byte (p + 2)) (s.byte (p + 3)) = len)
    (hty : getLong4 (s.byte (p + 4)) (s.byte (p + 5)) (s.byte (p + 6)) (s.byte (p + 7)) = tyJp2h)
    (henf : len ≤ 8 + s.size - (p + 8))
    (h0 : len ≠ 0)
    (hsub : rmSub fuel ⟨s, p + 8, false⟩ (p + 8) (boxes + 1) allocs = (.error e, allocs2)) :
    rmTop (fuel + 1) ⟨s, p, false⟩ boxes allocs lastTy sf ff = (.error e, allocs2) := by
  simp only [rmTop]
  rw [readN_at hread]
  simp only [bytesFrom_length, getLongAt_bytesFrom0 (show (4:Nat) ≤ 8 by omega),
    getLongAt_bytesFrom4 (le_refl 8), hlen, hty]
  rw [if_neg (show ¬(8 < 8) by omega)]
  rw [if_neg hb]
  rw [if_neg (not_not_intro henf)]
  rw [if_neg h0]
  rw [if_neg (show tyJp2h ≠ tySig from by decide)]
  rw [if_neg (show tyJp2h ≠ tyFtyp from by decide)]
  simp only [if_true]
  rw [hsub]

theorem rmTop_dummies (k n : Nat) : ∀ m f b allocs lastTy sf ff, m ≤ n → m + 1 ≤ f → b ≤ 1001 →
    rmTop f ⟨rmFile k n, 48 + 8 * k + 8 * (n - m), false⟩ b allocs lastTy sf ff =
      (if b + m ≤ 1001 then ((.ok () : Except Err Unit), allocs)
       else (.error .corrupted, allocs)) := by
  intro m
  induction m with
  | zero =>
    intro f b allocs lastTy sf ff hm hf hb
    cases f with
    | zero => omega
    | succ f2 =>
      rw [Nat.sub_zero]
      rw [rmTop_exit f2 b allocs lastTy sf ff (rmFile k n) (48 + 8 * k + 8 * n)
        (by rw [rmFile_size])]
      rw [if_pos (show b + 0 ≤ 1001 by omega)]
  | succ m ih =>
    intro f b allocs lastTy sf ff hm hf hb
    cases f with
    | zero => omega
    | succ f2 =>
      by_cases hbig : b > 1000
      · rw [rmTop_reject f2 b allocs lastTy sf ff (rmFile k n) (48 + 8 * k + 8 * (n - (m + 1)))
          (by rw [rmFile_size]; omega) hbig]
        rw [if_neg (show ¬(b + (m + 1) ≤ 1001) by omega)]
      · rw [rmTop_step_generic f2 b 8 0x62626262 allocs lastTy sf ff (rmFile k n)
          (48 + 8 * k + 8 * (n - (m + 1)))
          (by rw [rmFile_size]; omega) hbig
          (dummyHdr_len k n (n - (m + 1))) (dummyHdr_ty k n (n - (m + 1)))
          (by rw [rmFile_size]; omega) (by omega)
          (by decide) (by decide) (by decide) (by decide)]
        rw [show 48 + 8 * k + 8 * (n - (m + 1)) + 8 = 48 + 8 * k + 8 * (n - m) from by omega]
        rw [ih f2 (b + 1) allocs 0x62626262 sf ff (by omega) (by omega) (by omega)]
        rw [show b + 1 + m = b + (m + 1) from by omega]

set_option maxRecDepth 8000 in
/-- C6: `readMetadata` counts every decoded box with a single counter shared
between the top-level loop and the JP2 Header sub-box loop and throws
CorruptedMetadata as soon as the count exceeds 1000: on a file carrying a
signature, a File Type box, a JP2 Header with `k` sub-boxes and `n` further
top-level boxes — 3 + k + n boxes in all — the walk fails exactly when
k + n ≥ 999, i.e. when the counter passes 1000, wherever the boxes sit. -/
theorem claim_C6_box_ceiling (k n : Nat) (hk : k ≤ 1100) (hn : n ≤ 1100) :
    (readMetadataS (rmFile k n)).res =
      (if 999 ≤ k + n then .error .corrupted else .ok ()) := by
  have hsig12 : (bytesFrom (rmFile k n) 0 12 == jp2SigBytes) = true := rfl
  simp only [readMetadataS]
  rw [isJp2Type_noadv (show 0 + 12 ≤ (rmFile k n).size by rw [rmFile_size]; omega)]
  rw [hsig12]
  simp only [Bool.not_true, Bool.false_eq_true, if_false]
  have h1 : rmTop 1200 ⟨rmFile k n, 0, false⟩ 0 [] 0 false false =
      rmTop 1199 ⟨rmFile k n, 12, false⟩ 1 [] tySig true false := by
    have := rmTop_step_sig 1199 0 [] 0 false (rmFile k n) 0
      (by rw [rmFile_size]; omega) (by omega)
      (getLong4_congr 0 0 0 12 rfl rfl rfl rfl (by decide))
      (getLong4_congr 0x6a 0x50 0x20 0x20 rfl rfl rfl rfl (by decide))
      (by rw [rmFile_size]; omega)
    exact this
  have h2 : rmTop 1199 ⟨rmFile k n, 12, false⟩ 1 [] tySig true false =
      rmTop 1198 ⟨rmFile k n, 32, false⟩ 2 [12] tyFtyp true true := by
    have := rmTop_step_ftyp 1198 1 [] (rmFile k n) 12 true
      (by rw [rmFile_size]; omega) (by omega)
      (getLong4_congr 0 0 0 20 rfl rfl rfl rfl (by decide))
      (getLong4_congr 0x66 0x74 0x79 0x70 rfl rfl rfl rfl (by decide))
      (by rw [rmFile_size]; omega)
      (by rw [rmFile_size]; omega)
      (by
        rw [show bytesFrom (rmFile k n) (12 + 8) 12 =
          [0x6a, 0x70, 0x32, 0x20, 0, 0, 0, 0, 0x6a, 0x70, 0x32, 0x20] from rfl]
        decide)
    exact this
  rw [h1, h2]
  have hsub0 := rmSub_run k n k 1197 3 [12] (le_refl k) (by omega) (by omega)
  rw [show 40 + 8 * (k - k) = 40 from by omega] at hsub0
  by_cases hkn : 3 + k ≤ 1001
  · rw [if_pos hkn] at hsub0
    have h3 : rmTop 1198 ⟨rmFile k n, 32, false⟩ 2 [12] tyFtyp true true =
        rmTop 1197 ⟨rmFile k n, 48 + 8 * k, false⟩ (3 + k) [12] tyJp2h true true := by
      have := rmTop_step_jp2h_ok 1197 2 (16 + 8 * k) [12] [12] tyFtyp (3 + k) true true
        ⟨rmFile k n, 48 + 8 * k, false⟩ (rmFile k n) 32
        (by rw [rmFile_size]; omega) (by omega)
        (jp2hHdr_len k n (by omega)) (jp2hHdr_ty k n)
        (by rw [rmFile_size]; omega) (by omega)
        hsub0 rfl
      rw [this]
      rw [show 32 + (16 + 8 * k) = 48 + 8 * k from by omega]
    rw [h3]
    have hdum := rmTop_dummies k n n 1197 (3 + k) [12] tyJp2h true true
      (le_refl n) (by omega) (by omega)
    rw [show 48 + 8 * k + 8 * (n - n) = 48 + 8 * k from by omega] at hdum
    rw [hdum]
    by_cases hfin : 3 + k + n ≤ 1001
    · rw [if_pos hfin]
      rw [if_neg (show ¬(999 ≤ k + n) by omega)]
    · rw [if_neg hfin]
      rw [if_pos (show 999 ≤ k + n by omega)]
  · rw [if_neg hkn] at hsub0
    have h3 : rmTop 1198 ⟨rmFile k n, 32, false⟩ 2 [12] tyFtyp true true =
        (.error .corrupted, [12]) := by
      have := rmTop_step_jp2h_err 1197 2 (16 + 8 * k) [12] [12] tyFtyp true true .corrupted
        (rmFile k n) 32
        (by rw [rmFile_size]; omega) (by omega)
        (jp2hHdr_len k n (by omega)) (jp2hHdr_ty k n)
        (by rw [rmFile_size]; omega) (by omega)
        hsub0
      exact this
    rw [h3]
    rw [if_pos (show 999 ≤ k + n by omega)]

/-- Witness for C6 at the ceiling: 500 sub-boxes with 499 top-level boxes
fail, 500 with 498 pass. -/
theorem claim_C6_box_ceiling_w :
    (readMetadataS (rmFile 500 499)).res = .error .corrupted ∧
    (readMetadataS (rmFile 500 498)).res = .ok () := by
  constructor
  · have h := claim_C6_box_ceiling 500 499 (by omega) (by omega)
    rw [if_pos (by omega : 999 ≤ 500 + 499)] at h
    exact h
  · have h := claim_C6_box_ceiling 500 498 (by omega) (by omega)
    rw [if_neg (by omega : ¬ 999 ≤ 500 + 498)] at h
    exact h

set_option maxRecDepth 40000 in
/-- C7 (amended): the METH = 1, enumCS ∉ {16, 17} rejection lives in
`printStructure`, not in `readMetadata`: `printStructure` on a JP2 Header
whose Color Spec sub-box has METH 1 and enumCS bytes decoding to any value
other than 16 and 17 throws CorruptedMetadata. -/
theorem claim_C7_enumcs_validation (e0 e1 e2 e3 : Nat)
    (h16 : getLong4 e0 e1 e2 e3 ≠ 16) (h17 : getLong4 e0 e1 e2 e3 ≠ 17) :
    printStructureS (psColrStream e0 e1 e2 e3) = .error .corrupted := by
  set S := psColrStream e0 e1 e2 e3 with hS
  have hsz : S.size = 72 := rfl
  have h0 : printStructureS S = psTop 1096 ⟨S, 0, false⟩ 1 1 false := by
    simp only [printStructureS, hsz]
    rw [isJp2Type_noadv (show 0 + 12 ≤ S.size by rw [hsz]; omega)]
    rw [show (bytesFrom S 0 12 == jp2SigBytes) = true from rfl]
    simp only [Bool.not_true, Bool.false_eq_true, if_false]
  have h1 : psTop 1096 ⟨S, 0, false⟩ 1 1 false = psTop 1095 ⟨S, 12, false⟩ 12 tySig true := by
    have := psTop_step_sig 1095 1 1 12 S 0 (by decide) (by rw [hsz]; omega)
      (getLong4_congr 0 0 0 12 rfl rfl rfl rfl (by decide))
      (getLong4_congr 0x6a 0x50 0x20 0x20 rfl rfl rfl rfl (by decide))
      (by rw [hsz]; omega)
    exact this
  have h2 : psTop 1095 ⟨S, 12, false⟩ 12 tySig true =
      psTop 1094 ⟨S, 32, false⟩ 20 tyFtyp true := by
    have := psTop_step_ftyp 1094 12 tySig 20 S 12 true (by decide) (by rw [hsz]; omega)
      (getLong4_congr 0 0 0 20 rfl rfl rfl rfl (by decide))
      (getLong4_congr 0x66 0x74 0x79 0x70 rfl rfl rfl rfl (by decide))
      (by rw [hsz]; omega) (by decide) (by rw [hsz]; omega)
      (by rw [show bytesFrom S (12 + 8) (20 - 8) =
          [0x6a, 0x70, 0x32, 0x20, 0, 0, 0, 0, 0x6a, 0x70, 0x32, 0x20] from rfl]
          ; decide)
    exact this
  have hsub : psSub 40 24 1093 ⟨S, 40, false⟩ = .error .corrupted := by
    have := psSub_colr_reject 40 24 1092 16 (getLong4 e0 e1 e2 e3) S 40 (by rw [hsz]; omega)
      (by omega)
      (getLong4_congr 0 0 0 16 rfl rfl rfl rfl (by decide))
      (getLong4_congr 0x63 0x6f 0x6c 0x72 rfl rfl rfl rfl (by decide))
      (by rw [hsz]; decide) (by rw [hsz]; omega) (by decide)
      (show S.byte (40 + 8) = 1 from rfl)
      (getLong4_congr e0 e1 e2 e3 rfl rfl rfl rfl rfl)
      h16 h17
    exact this
  have h3 : psTop 1094 ⟨S, 32, false⟩ 20 tyFtyp true = .error .corrupted := by
    have := psTop_step_jp2h_err 1093 20 tyFtyp 24 S 32 true .corrupted (by decide)
      (by rw [hsz]; omega)
      (getLong4_congr 0 0 0 24 rfl rfl rfl rfl (by decide))
      (getLong4_congr 0x6a 0x70 0x32 0x68 rfl rfl rfl rfl (by decide))
      (by rw [hsz]; omega) hsub
    exact this
  rw [h0, h1, h2, h3]

set_option maxRecDepth 40000 in
/-- Witness for C7 at enumCS = 20. -/
theorem claim_C7_enumcs_validation_w :
    getLong4 0 0 0 20 ≠ 16 ∧ getLong4 0 0 0 20 ≠ 17 ∧
    printStructureS (psColrStream 0 0 0 20) = .error .corrupted :=
  ⟨by decide, by decide, claim_C7_enumcs_validation 0 0 0 20 (by decide) (by decide)⟩

set_option maxRecDepth 40000 in
/-- Counterexample to C7 as stated: `readMetadata` — the read path — accepts
a file whose Color Spec sub-box has METH = 1 (byte 48) and enumCS = 20
(bytes 51..54) without any error. -/
theorem claim_C7_enumcs_validation_cex :
    (readMetadataL cex7).res = .ok () ∧
    byteAt cex7 48 = 1 ∧ getLongAt cex7 51 = 20 ∧
    (20 : Nat) ≠ 16 ∧ (20 : Nat) ≠ 17 := by decide

/-- C8: `printStructure` on a readable stream of at least 12 bytes whose
first 12 bytes are not the JP2 signature throws the JPEG-specific NotAJpeg
error — not NotAnImage as the claim states. -/
theorem claim_C8_signature_error (s : Stream) (h12 : 12 ≤ s.size)
    (hsig : ¬ bytesFrom s 0 12 = jp2SigBytes) :
    printStructureS s = .error .notAJpeg ∧ Err.notAJpeg ≠ Err.notAnImage := by
  refine ⟨?_, by decide⟩
  have hb : (bytesFrom s 0 12 == jp2SigBytes) = false := by
    exact beq_eq_false_iff_ne.mpr hsig
  simp only [printStructureS]
  rw [isJp2Type_noadv (show (0:Nat) + 12 ≤ s.size by omega)]
  simp [hb]

/-- Witness for C8 on a JFIF JPEG header. -/
theorem claim_C8_signature_error_w :
    12 ≤ jpegBytes.length ∧
    printStructureL jpegBytes = .error .notAJpeg :=
  ⟨by decide, (claim_C8_signature_error ⟨fun i => byteAt jpegBytes i, jpegBytes.length⟩
    (by decide) (by decide)).1⟩

set_option maxRecDepth 40000 in
/-- C9 (amended): constructing the image with `create` writes the canonical
blank-JP2 template of exactly 249 bytes — not 220 — whose first 12 bytes are
the JP2 signature, whose bytes 12..31 are the 20-byte File Type box, and
whose last two bytes are FF D9. -/
theorem claim_C9_blank_template :
    jp2Create true [] = jp2BlankBytes ∧
    jp2BlankBytes.length = 249 ∧
    jp2BlankBytes.take 12 = jp2SigBytes ∧
    getLongAt jp2BlankBytes 12 = 20 ∧ getLongAt jp2BlankBytes 16 = tyFtyp ∧
    (jp2BlankBytes.drop 12).take 20 = ftyp20 ∧
    jp2BlankBytes.drop 247 = [0xff, 0xd9] := by decide

set_option maxRecDepth 40000 in
/-- Counterexample to C9 as stated: the blank template is 249 bytes long,
not 220. -/
theorem claim_C9_blank_template_cex :
    jp2BlankBytes.length = 249 ∧ (249 : Nat) ≠ 220 := by decide

/-- C10: if `writeMetadata` exits with an error the original stream is
byte-for-byte unchanged: the rewrite goes to a fresh in-memory sink, and the
original is replaced only after `doWriteMetadata` returns without error. -/
theorem claim_C10_transactional (p : WParams) (d : Bytes) (e : Err)
    (h : (writeMetadata p d).1 = .error e) : (writeMetadata p d).2 = d := by
  cases hw : doWriteMetadataL p d with
  | error e2 => simp [writeMetadata, hw]
  | ok o => simp [writeMetadata, hw] at h

set_option maxRecDepth 40000 in
/-- Witness for C10 on a file whose Uuid box is shorter than 24 bytes. -/
theorem claim_C10_transactional_w :
    (writeMetadata c10p c10file).1 = .error .corrupted ∧
    (writeMetadata c10p c10file).2 = c10file :=
  ⟨by decide, claim_C10_transactional c10p c10file .corrupted (by decide)⟩

set_option maxRecDepth 40000 in
/-- Witness for C3 on `c34file`: the Exif-UUID box is dropped and the
foreign-UUID box copied byte-exactly. -/
theorem claim_C3_uuid_rewrite_w :
    doWriteMetadataL c34p c34file = .ok c34out ∧
    chunksOfFile c34file = some c34cs ∧
    c34out = jp2SigBytes ++ (c34cs.map (emitOk c34p)).join :=
  ⟨by decide, by decide,
    (claim_C3_uuid_rewrite c34p c34file c34out c34cs (by decide) (by decide)).1⟩

set_option maxRecDepth 40000 in
/-- Witness for C4 on `c34file`: the blank JP2 Header box of the input is
re-encoded and followed by the Exif, IPTC and XMP UUID boxes. -/
theorem claim_C4_metadata_emission_w :
    blankJp2hBytes ∈ c34cs ∧
    (∃ henc, encodeJp2Header blankJp2hBytes c34p.icc = .ok henc ∧
      emitOk c34p blankJp2hBytes = henc
        ++ (if 0 < c34p.exifCount ∧ c34p.exifBlob ≠ [] then
              ul2Data (8 + 16 + c34p.exifBlob.length) ++ ul2Data tyUuid ++ exifUuidB ++ c34p.exifBlob
            else [])
        ++ (if 0 < c34p.iptcCount ∧ c34p.iptcBlob ≠ [] then
              ul2Data (8 + 16 + c34p.iptcBlob.length) ++ ul2Data tyUuid ++ iptcUuidB ++ c34p.iptcBlob
            else [])
        ++ (if xmpFinal c34p ≠ [] then
              ul2Data (8 + 16 + (xmpFinal c34p).length) ++ ul2Data tyUuid ++ xmpUuidB ++ xmpFinal c34p
            else [])) :=
  ⟨by decide,
    (claim_C4_metadata_emission c34p c34file c34out c34cs (by decide) (by decide)).2
      blankJp2hBytes (by decide) (by decide)⟩

end Jp2
